import Mathlib

/-!
# Verification of the Quilt protocol core

A shallow embedding, in Lean 4, of the protocol/state-synchronization core of
the `homeassistant-quilt` integration, together with theorems settling the
frozen claims about its specification.

Modelling conventions, shared by every definition below:

* Python `bytes` values are modelled as `List Nat`, each element a byte value
  (0..255).  All inputs we construct are genuine byte lists.
* Python exceptions of the codec (`ProtoWireError`, always fatal to the single
  call) are modelled with `Except String`, carrying the source's message
  strings.  Functions that catch exceptions (`try/except`) pattern-match on the
  `Except` value, exactly where the source has a `try` block; functions that do
  not catch propagate the error monadically.
* `str.decode("utf-8")` is kept at the byte level: decoded identifier strings
  are represented by their UTF-8 bytes (UTF-8 decoding is injective, and every
  equality / emptiness test used by the parsers is preserved by this
  representation).  Dictionary keys that are Python string *literals* (topic
  names) are Lean `String` literals.
* IEEE-754 `float` values produced by `struct.unpack` are represented by their
  bit patterns (a `Nat` below `2^32` / `2^64`); `struct.pack`/`struct.unpack`
  are the little-endian byte (de)serializations of those patterns, which is an
  exact, injective account of the source's behaviour.  A value decoded from a
  fixed32 field is tagged separately from one decoded from a fixed64 field
  (Python widens float32 to float64 exactly, so the tagged pattern determines
  the Python value, and NaN-ness is preserved by the widening).
* Python dicts are association lists with insert-or-replace update
  (`dinsert`), Python sets of strings are duplicate-free lists with
  membership-based insertion (`sinsert`).
-/

deriving instance DecidableEq for Except

namespace Quilt

/-! ## proto_wire.py — wire-format codec -/

/-- The value carried by one decoded field: a varint (`int`) or a byte slice
(`bytes`), mirroring `ProtoField.value`'s `int | bytes` type. -/
inductive PValue where
  | vint (n : Nat)
  | vbytes (bs : List Nat)
  deriving DecidableEq

/-- Byte-slice payload of a `PValue`; the `vint` default is never reached when
the caller filtered on a byte-carrying wire type. -/
def PValue.bytes : PValue → List Nat
  | .vbytes bs => bs
  | .vint _ => []

/-- Integer payload of a `PValue`; the `vbytes` default is never reached when
the caller filtered on wire type 0. -/
def PValue.int : PValue → Nat
  | .vint n => n
  | .vbytes _ => 0

/-- `ProtoField` from `proto_wire.py`. -/
structure ProtoField where
  number : Nat
  wire_type : Nat
  value : PValue
  deriving DecidableEq

/-- The loop of `_read_varint`: `result`/`shift` are the loop variables, the
byte list is the remaining input (the source tracks an offset into the full
buffer; we pass the suffix, which is the same iteration).  Raises
"truncated varint" past the end and "varint too long" when `shift + 7 > 70`
would be exceeded after a continuation byte. -/
def readVarintGo : List Nat → Nat → Nat → Except String (Nat × List Nat)
  | [], _, _ => .error "truncated varint"
  | b :: rest, result, shift =>
    let result := result ||| ((b &&& 0x7F) <<< shift)
    if b &&& 0x80 == 0 then .ok (result, rest)
    else if shift + 7 > 70 then .error "varint too long"
    else readVarintGo rest result (shift + 7)

/-- `_read_varint(data, offset)`, with the suffix of `data` from `offset` as
input; returns the value and the remaining suffix. -/
def read_varint (data : List Nat) : Except String (Nat × List Nat) :=
  readVarintGo data 0 0

/-- The `while offset < len(data)` loop of `decode_message`, with fuel (the
wrapper supplies more fuel than bytes, and each iteration consumes at least
one byte, so the fuel never runs out on the wrapper's call). -/
def decodeMsgGo : Nat → List Nat → Except String (List ProtoField)
  | _, [] => .ok []
  | 0, _ :: _ => .error "out of fuel"
  | fuel + 1, data@(_ :: _) =>
    (read_varint data).bind fun kr =>
      let key := kr.1
      let r1 := kr.2
      let field_number := key >>> 3
      let wire_type := key &&& 0x07
      if field_number == 0 then .error "field number 0 is invalid"
      else if wire_type == 0 then
        (read_varint r1).bind fun vr =>
          (decodeMsgGo fuel vr.2).map (⟨field_number, wire_type, .vint vr.1⟩ :: ·)
      else if wire_type == 1 then
        if r1.length < 8 then .error "truncated fixed64"
        else (decodeMsgGo fuel (r1.drop 8)).map
          (⟨field_number, wire_type, .vbytes (r1.take 8)⟩ :: ·)
      else if wire_type == 2 then
        (read_varint r1).bind fun lr =>
          if lr.2.length < lr.1 then .error "truncated length-delimited field"
          else (decodeMsgGo fuel (lr.2.drop lr.1)).map
            (⟨field_number, wire_type, .vbytes (lr.2.take lr.1)⟩ :: ·)
      else if wire_type == 5 then
        if r1.length < 4 then .error "truncated fixed32"
        else (decodeMsgGo fuel (r1.drop 4)).map
          (⟨field_number, wire_type, .vbytes (r1.take 4)⟩ :: ·)
      else .error "unsupported wire type"

/-- `decode_message(data)` from `proto_wire.py`. -/
def decode_message (data : List Nat) : Except String (List ProtoField) :=
  decodeMsgGo (data.length + 1) data

/-- The loop of `_encode_varint`, with fuel (the wrapper passes `value + 1`,
which always exceeds the number of base-128 digits). -/
def encVarintGo : Nat → Nat → List Nat
  | 0, _ => []
  | fuel + 1, value =>
    let b := value &&& 0x7F
    let v := value >>> 7
    if v == 0 then [b] else (b ||| 0x80) :: encVarintGo fuel v

/-- `_encode_varint(value)`; the domain `Nat` captures the source's rejection
of negative values ("negative varint not supported"). -/
def encode_varint (value : Nat) : List Nat :=
  encVarintGo (value + 1) value

/-- `encode_key(field_number, wire_type)`. -/
def encode_key (field_number wire_type : Nat) : List Nat :=
  encode_varint ((field_number <<< 3) ||| wire_type)

/-- `encode_length_delimited(payload)`. -/
def encode_length_delimited (payload : List Nat) : List Nat :=
  encode_varint payload.length ++ payload

/-- `encode_bytes_field(field_number, payload)`. -/
def encode_bytes_field (field_number : Nat) (payload : List Nat) : List Nat :=
  encode_key field_number 2 ++ encode_length_delimited payload

/-- `encode_varint_field(field_number, value)`. -/
def encode_varint_field (field_number value : Nat) : List Nat :=
  encode_key field_number 0 ++ encode_varint value

/-- Little-endian 4-byte serialization of a 32-bit pattern: the model of
`struct.pack("<f", value)` applied to the float whose IEEE-754 bits are
`bits`. -/
def u32le (bits : Nat) : List Nat :=
  [bits % 256, bits / 2 ^ 8 % 256, bits / 2 ^ 16 % 256, bits / 2 ^ 24 % 256]

/-- Little-endian 8-byte serialization of a 64-bit pattern: the model of
`struct.pack("<d", value)`. -/
def u64le (bits : Nat) : List Nat :=
  [bits % 256, bits / 2 ^ 8 % 256, bits / 2 ^ 16 % 256, bits / 2 ^ 24 % 256,
   bits / 2 ^ 32 % 256, bits / 2 ^ 40 % 256, bits / 2 ^ 48 % 256, bits / 2 ^ 56 % 256]

/-- Little-endian recomposition of a 4-byte slice into the 32-bit pattern:
the model of `struct.unpack("<f", value)[0]`. -/
def u32ofLe (bs : List Nat) : Nat :=
  match bs with
  | [b0, b1, b2, b3] => b0 + 2 ^ 8 * b1 + 2 ^ 16 * b2 + 2 ^ 24 * b3
  | _ => 0

/-- Little-endian recomposition of an 8-byte slice into the 64-bit pattern:
the model of `struct.unpack("<d", value)[0]`. -/
def u64ofLe (bs : List Nat) : Nat :=
  match bs with
  | [b0, b1, b2, b3, b4, b5, b6, b7] =>
    b0 + 2 ^ 8 * b1 + 2 ^ 16 * b2 + 2 ^ 24 * b3 + 2 ^ 32 * b4 + 2 ^ 40 * b5
      + 2 ^ 48 * b6 + 2 ^ 56 * b7
  | _ => 0

/-- `encode_fixed32_float(field_number, value)`, with the float given by its
32-bit IEEE-754 pattern. -/
def encode_fixed32_float (field_number bits : Nat) : List Nat :=
  encode_key field_number 5 ++ u32le bits

/-- `encode_fixed64_double(field_number, value)`, with the double given by its
64-bit IEEE-754 pattern. -/
def encode_fixed64_double (field_number bits : Nat) : List Nat :=
  encode_key field_number 1 ++ u64le bits

/-- `fixed32_to_float(value)`: requires exactly 4 bytes, otherwise raises
"fixed32 must be 4 bytes"; the result is the float's 32-bit pattern. -/
def fixed32_to_float (value : List Nat) : Except String Nat :=
  if value.length ≠ 4 then .error "fixed32 must be 4 bytes"
  else .ok (u32ofLe value)

/-- `fixed64_to_double(value)`: requires exactly 8 bytes, otherwise raises
"fixed64 must be 8 bytes"; the result is the double's 64-bit pattern. -/
def fixed64_to_double (value : List Nat) : Except String Nat :=
  if value.length ≠ 8 then .error "fixed64 must be 8 bytes"
  else .ok (u64ofLe value)

/-- `get_first(fields, number=..., wire_type=...)`; `wire_type = none` models
the keyword argument being omitted (no wire-type filter). -/
def get_first (fields : List ProtoField) (number : Nat) (wire_type : Option Nat) :
    Option ProtoField :=
  match fields with
  | [] => none
  | f :: rest =>
    if f.number ≠ number then get_first rest number wire_type
    else
      match wire_type with
      | some wt => if f.wire_type ≠ wt then get_first rest number wire_type else some f
      | none => some f

/-- `get_all(fields, number=..., wire_type=...)`. -/
def get_all (fields : List ProtoField) (number : Nat) (wire_type : Option Nat) :
    List ProtoField :=
  match fields with
  | [] => []
  | f :: rest =>
    if f.number ≠ number then get_all rest number wire_type
    else
      match wire_type with
      | some wt =>
        if f.wire_type ≠ wt then get_all rest number wire_type
        else f :: get_all rest number wire_type
      | none => f :: get_all rest number wire_type

/-! ## Wire-codec lemmas -/

theorem readVarintGo_sublen :
    ∀ (data : List Nat) (result shift v : Nat) (rest : List Nat),
      readVarintGo data result shift = .ok (v, rest) → rest.length < data.length := by
  intro data
  induction data with
  | nil => intro r s v rest h; simp [readVarintGo] at h
  | cons b tl ih =>
    intro r s v rest h
    simp only [readVarintGo] at h
    split at h
    · rw [Except.ok.injEq, Prod.mk.injEq] at h
      obtain ⟨-, rfl⟩ := h
      simp
    · split at h
      · exact absurd h (by simp)
      · have := ih _ _ _ _ h
        simp only [List.length_cons]
        omega

theorem read_varint_sublen {data : List Nat} {v : Nat} {rest : List Nat}
    (h : read_varint data = .ok (v, rest)) : rest.length < data.length :=
  readVarintGo_sublen data 0 0 v rest h

theorem readVarintGo_append :
    ∀ (a : List Nat) (result shift v : Nat) (rest b : List Nat),
      readVarintGo a result shift = .ok (v, rest) →
      readVarintGo (a ++ b) result shift = .ok (v, rest ++ b) := by
  intro a
  induction a with
  | nil => intro r s v rest b h; simp [readVarintGo] at h
  | cons x tl ih =>
    intro r s v rest b h
    simp only [readVarintGo] at h ⊢
    split at h
    · rename_i hcond
      rw [if_pos hcond]
      rw [Except.ok.injEq, Prod.mk.injEq] at h
      obtain ⟨rfl, rfl⟩ := h
      rfl
    · rename_i hcond
      rw [if_neg hcond]
      split at h
      · exact absurd h (by simp)
      · rename_i h70
        rw [if_neg h70]
        exact ih _ _ _ _ _ h

theorem read_varint_append {a : List Nat} {v : Nat} {rest : List Nat} (b : List Nat)
    (h : read_varint a = .ok (v, rest)) : read_varint (a ++ b) = .ok (v, rest ++ b) :=
  readVarintGo_append a 0 0 v rest b h

theorem and_127_eq_mod (b : Nat) : b &&& 127 = b % 128 := by
  have := Nat.and_pow_two_sub_one_eq_mod b 7
  norm_num at this
  exact this

theorem two_pow_7_eq : (2 : Nat) ^ 7 = 128 := by norm_num

theorem and_128_eq_zero {b : Nat} (h : b < 128) : b &&& 128 = 0 := by
  have h1 : b &&& 2 ^ 7 = (b.testBit 7).toNat * 2 ^ 7 := Nat.and_two_pow b 7
  rw [Nat.testBit_lt_two_pow (by rw [two_pow_7_eq]; exact h)] at h1
  norm_num at h1
  exact h1

theorem lor_eq_add_of_lt {s b : Nat} (a : Nat) (h : b < 2 ^ s) :
    (a <<< s) ||| b = a * 2 ^ s + b := by
  have h2 := Nat.mul_add_lt_is_or h a
  rw [Nat.shiftLeft_eq]
  rw [Nat.mul_comm (2 ^ s) a] at h2
  omega

theorem lor_128_eq_add {b : Nat} (h : b < 128) : b ||| 128 = b + 128 := by
  have h2 := Nat.mul_add_lt_is_or (show b < 2 ^ 7 by rw [two_pow_7_eq]; exact h) 1
  rw [Nat.lor_comm] at h2
  norm_num at h2
  omega

theorem lor_low_shift {result : Nat} (b shift : Nat) (hres : result < 2 ^ shift) :
    result ||| (b <<< shift) = result + b * 2 ^ shift := by
  have h2 := lor_eq_add_of_lt b hres
  rw [Nat.lor_comm] at h2
  omega

theorem readVarintGo_enc :
    ∀ (fuel v : Nat), v < fuel → ∀ (rest : List Nat) (result shift : Nat),
      result < 2 ^ shift → v < 2 ^ (70 - shift) →
      readVarintGo (encVarintGo fuel v ++ rest) result shift =
        .ok (result + v * 2 ^ shift, rest) := by
  intro fuel
  induction fuel with
  | zero => intro v hv; omega
  | succ f ih =>
    intro v hv rest result shift hres hlim
    simp only [encVarintGo]
    by_cases hz : v >>> 7 = 0
    · have hvlt : v < 128 := by
        rw [Nat.shiftRight_eq_div_pow] at hz
        norm_num at hz
        omega
      have hb : v &&& 127 = v := by rw [and_127_eq_mod]; omega
      simp only [hz, beq_self_eq_true, if_pos, List.cons_append]
      simp only [readVarintGo, hb, and_128_eq_zero hvlt, beq_self_eq_true, if_pos]
      rw [lor_low_shift v shift hres]
      simp
    · have hv128 : 128 ≤ v := by
        rw [Nat.shiftRight_eq_div_pow] at hz
        norm_num at hz
        by_contra hc
        exact hz (Nat.div_eq_of_lt (by omega))
      have hshift : shift ≤ 62 := by
        by_contra hc
        have h8 : 70 - shift ≤ 7 := by omega
        have : (2 : Nat) ^ (70 - shift) ≤ 2 ^ 7 := Nat.pow_le_pow_right (by norm_num) h8
        norm_num at this
        omega
      have hblt : v &&& 127 < 128 := by rw [and_127_eq_mod]; omega
      have hcont : ((v &&& 127) ||| 128) &&& 128 ≠ 0 := by
        rw [lor_128_eq_add hblt]
        have ht : ((v &&& 127) + 128).testBit 7 = true := by
          rw [Nat.testBit_to_div_mod]
          have : ((v &&& 127) + 128) / 2 ^ 7 = 1 := by
            norm_num
            omega
          rw [this]
          rfl
        have h1 : ((v &&& 127) + 128) &&& 2 ^ 7 = (((v &&& 127) + 128).testBit 7).toNat * 2 ^ 7 :=
          Nat.and_two_pow _ 7
        rw [ht] at h1
        norm_num at h1 ⊢
        rw [h1]
        norm_num
      have hstep : (((v &&& 127) ||| 128) &&& 127) = v &&& 127 := by
        rw [lor_128_eq_add hblt, and_127_eq_mod, and_127_eq_mod, Nat.add_mod_right,
          Nat.mod_mod_of_dvd]
        exact dvd_refl 128
      simp only [hz, if_neg, List.cons_append, ite_false, beq_iff_eq]
      rw [readVarintGo]
      simp only [hstep, hcont, beq_iff_eq, if_neg, ite_false]
      have hnot70 : ¬ shift + 7 > 70 := by omega
      simp only [hnot70, if_false, ite_false]
      have hrec := ih (v >>> 7) (by
          rw [Nat.shiftRight_eq_div_pow]
          have : v / 2 ^ 7 < v := Nat.div_lt_self (by omega) (by norm_num)
          omega)
        rest (result ||| ((v &&& 127) <<< shift)) (shift + 7)
        (by
          rw [lor_low_shift _ shift hres]
          have : (v &&& 127) * 2 ^ shift ≤ 127 * 2 ^ shift :=
            Nat.mul_le_mul_right _ (by omega)
          have h2 : (2 : Nat) ^ (shift + 7) = 2 ^ shift * 128 := by ring
          omega)
        (by
          rw [Nat.shiftRight_eq_div_pow]
          have hsub : 70 - (shift + 7) = (70 - shift) - 7 := by omega
          rw [hsub]
          rw [Nat.div_lt_iff_lt_mul (by norm_num : (0:Nat) < 2 ^ 7)]
          calc v < 2 ^ (70 - shift) := hlim
            _ = 2 ^ (70 - shift - 7) * 2 ^ 7 := by
                rw [← Nat.pow_add]
                congr 1
                omega)
      rw [hrec]
      congr 1
      rw [lor_low_shift _ shift hres]
      have hmoddiv : v &&& 127 = v % 128 := and_127_eq_mod v
      rw [Nat.shiftRight_eq_div_pow]
      norm_num
      have h2 : (2 : Nat) ^ (shift + 7) = 2 ^ shift * 128 := by ring
      rw [hmoddiv, h2]
      have := Nat.mod_add_div v 128
      nlinarith [Nat.mod_add_div v 128]

theorem read_varint_enc {v : Nat} (rest : List Nat) (hv : v < 2 ^ 70) :
    read_varint (encode_varint v ++ rest) = .ok (v, rest) := by
  have := readVarintGo_enc (v + 1) v (by omega) rest 0 0 (by norm_num) (by norm_num; exact hv)
  simpa [read_varint, encode_varint] using this

theorem except_bind_ok {ε α β : Type} (a : α) (f : α → Except ε β) :
    (Except.ok a : Except ε α).bind f = f a := rfl

theorem except_bind_error {ε α β : Type} (e : ε) (f : α → Except ε β) :
    (Except.error e : Except ε α).bind f = .error e := rfl

theorem except_map_ok {ε α β : Type} (a : α) (f : α → β) :
    (Except.ok a : Except ε α).map f = .ok (f a) := rfl

theorem except_map_error {ε α β : Type} (e : ε) (f : α → β) :
    (Except.error e : Except ε α).map f = .error e := rfl

theorem decodeMsgGo_fuelIrrel :
    ∀ (f1 : Nat) (data : List Nat) (f2 : Nat), data.length < f1 → data.length < f2 →
      decodeMsgGo f1 data = decodeMsgGo f2 data := by
  intro f1
  induction f1 with
  | zero => intro data f2 h1 h2; omega
  | succ g ih =>
    intro data f2 h1 h2
    cases data with
    | nil => cases f2 <;> simp [decodeMsgGo]
    | cons x tl =>
      cases f2 with
      | zero => simp at h2
      | succ f =>
        simp only [decodeMsgGo]
        cases hrv : read_varint (x :: tl) with
        | error e => rfl
        | ok kr =>
          obtain ⟨key, r1⟩ := kr
          have hr1 : r1.length < (x :: tl).length := read_varint_sublen hrv
          simp only [List.length_cons] at h1 h2 hr1
          simp only [except_bind_ok]
          by_cases hk : (key >>> 3 == 0) = true
          · simp only [hk, if_true]
          · simp only [hk, if_false, Bool.false_eq_true]
            by_cases hw0 : (key &&& 7 == 0) = true
            · simp only [hw0, if_true]
              cases hrv2 : read_varint r1 with
              | error e => rfl
              | ok vr =>
                obtain ⟨v, r2⟩ := vr
                have hr2 : r2.length < r1.length := read_varint_sublen hrv2
                simp only [except_bind_ok]
                rw [ih r2 f (by omega) (by omega)]
            · simp only [hw0, if_false, Bool.false_eq_true]
              by_cases hw1 : (key &&& 7 == 1) = true
              · simp only [hw1, if_true]
                by_cases hlen : r1.length < 8
                · simp only [hlen, if_true]
                · simp only [hlen, if_false]
                  rw [ih (r1.drop 8) f (by simp; omega) (by simp; omega)]
              · simp only [hw1, if_false, Bool.false_eq_true]
                by_cases hw2 : (key &&& 7 == 2) = true
                · simp only [hw2, if_true]
                  cases hrv2 : read_varint r1 with
                  | error e => rfl
                  | ok lr =>
                    obtain ⟨len, r2⟩ := lr
                    have hr2 : r2.length < r1.length := read_varint_sublen hrv2
                    simp only [except_bind_ok]
                    by_cases hlen : r2.length < len
                    · simp only [hlen, if_true]
                    · simp only [hlen, if_false]
                      rw [ih (r2.drop len) f (by simp; omega) (by simp; omega)]
                · simp only [hw2, if_false, Bool.false_eq_true]
                  by_cases hw5 : (key &&& 7 == 5) = true
                  · simp only [hw5, if_true]
                    by_cases hlen : r1.length < 4
                    · simp only [hlen, if_true]
                    · simp only [hlen, if_false]
                      rw [ih (r1.drop 4) f (by simp; omega) (by simp; omega)]
                  · simp only [hw5, if_false, Bool.false_eq_true]

theorem decodeMsgGo_append :
    ∀ (f1 : Nat) (a : List Nat) (fa : List ProtoField), decodeMsgGo f1 a = .ok fa →
      ∀ (b : List Nat) (fb : List ProtoField) (f3 : Nat), decode_message b = .ok fb →
        (a ++ b).length < f3 → decodeMsgGo f3 (a ++ b) = .ok (fa ++ fb) := by
  intro f1
  induction f1 with
  | zero =>
    intro a fa ha
    cases a with
    | nil =>
      simp only [decodeMsgGo, Except.ok.injEq] at ha
      subst ha
      intro b fb f3 hb hlen
      simp only [List.nil_append] at hlen ⊢
      rw [decodeMsgGo_fuelIrrel f3 b (b.length + 1) hlen (by omega)]
      exact hb
    | cons x tl => simp [decodeMsgGo] at ha
  | succ g ih =>
    intro a fa ha
    cases a with
    | nil =>
      simp only [decodeMsgGo, Except.ok.injEq] at ha
      subst ha
      intro b fb f3 hb hlen
      simp only [List.nil_append] at hlen ⊢
      rw [decodeMsgGo_fuelIrrel f3 b (b.length + 1) hlen (by omega)]
      exact hb
    | cons x tl =>
      intro b fb f3 hb hlen
      cases f3 with
      | zero => simp at hlen
      | succ f =>
        rw [List.cons_append] at hlen ⊢
        simp only [decodeMsgGo] at ha ⊢
        cases hrv : read_varint (x :: tl) with
        | error e =>
          rw [hrv, except_bind_error] at ha
          exact absurd ha (by simp)
        | ok kr =>
          obtain ⟨key, r1⟩ := kr
          rw [hrv, except_bind_ok] at ha
          have hr1 : r1.length < (x :: tl).length := read_varint_sublen hrv
          rw [← List.cons_append, read_varint_append b hrv, except_bind_ok]
          simp only at ha ⊢
          simp only [List.length_cons, List.length_append] at hlen hr1
          by_cases hk : (key >>> 3 == 0) = true
          · rw [if_pos hk] at ha; exact absurd ha (by simp)
          · rw [if_neg hk] at ha ⊢
            by_cases hw0 : (key &&& 7 == 0) = true
            · rw [if_pos hw0] at ha ⊢
              cases hrv2 : read_varint r1 with
              | error e =>
                rw [hrv2, except_bind_error] at ha
                exact absurd ha (by simp)
              | ok vr =>
                obtain ⟨v, r2⟩ := vr
                rw [hrv2, except_bind_ok] at ha
                have hr2 : r2.length < r1.length := read_varint_sublen hrv2
                rw [read_varint_append b hrv2, except_bind_ok]
                simp only at ha ⊢
                cases hrec : decodeMsgGo g r2 with
                | error e => rw [hrec, except_map_error] at ha; exact absurd ha (by simp)
                | ok fa' =>
                  rw [hrec, except_map_ok, Except.ok.injEq] at ha
                  subst ha
                  rw [ih r2 fa' hrec b fb f hb (by simp; omega), except_map_ok]
                  simp
            · rw [if_neg hw0] at ha ⊢
              by_cases hw1 : (key &&& 7 == 1) = true
              · rw [if_pos hw1] at ha ⊢
                by_cases hl8 : r1.length < 8
                · rw [if_pos hl8] at ha; exact absurd ha (by simp)
                · rw [if_neg hl8] at ha
                  rw [if_neg (by simp; omega : ¬ (r1 ++ b).length < 8)]
                  rw [List.take_append_of_le_length (by omega),
                    List.drop_append_of_le_length (by omega)]
                  cases hrec : decodeMsgGo g (r1.drop 8) with
                  | error e => rw [hrec, except_map_error] at ha; exact absurd ha (by simp)
                  | ok fa' =>
                    rw [hrec, except_map_ok, Except.ok.injEq] at ha
                    subst ha
                    rw [ih (r1.drop 8) fa' hrec b fb f hb (by simp; omega), except_map_ok]
                    simp
              · rw [if_neg hw1] at ha ⊢
                by_cases hw2 : (key &&& 7 == 2) = true
                · rw [if_pos hw2] at ha ⊢
                  cases hrv2 : read_varint r1 with
                  | error e =>
                    rw [hrv2, except_bind_error] at ha
                    exact absurd ha (by simp)
                  | ok lr =>
                    obtain ⟨len, r2⟩ := lr
                    rw [hrv2, except_bind_ok] at ha
                    have hr2 : r2.length < r1.length := read_varint_sublen hrv2
                    rw [read_varint_append b hrv2, except_bind_ok]
                    simp only at ha ⊢
                    by_cases hl : r2.length < len
                    · rw [if_pos hl] at ha; exact absurd ha (by simp)
                    · rw [if_neg hl] at ha
                      rw [if_neg (by simp; omega : ¬ (r2 ++ b).length < len)]
                      rw [List.take_append_of_le_length (by omega),
                        List.drop_append_of_le_length (by omega)]
                      cases hrec : decodeMsgGo g (r2.drop len) with
                      | error e => rw [hrec, except_map_error] at ha; exact absurd ha (by simp)
                      | ok fa' =>
                        rw [hrec, except_map_ok, Except.ok.injEq] at ha
                        subst ha
                        rw [ih (r2.drop len) fa' hrec b fb f hb (by simp; omega),
                          except_map_ok]
                        simp
                · rw [if_neg hw2] at ha ⊢
                  by_cases hw5 : (key &&& 7 == 5) = true
                  · rw [if_pos hw5] at ha ⊢
                    by_cases hl4 : r1.length < 4
                    · rw [if_pos hl4] at ha; exact absurd ha (by simp)
                    · rw [if_neg hl4] at ha
                      rw [if_neg (by simp; omega : ¬ (r1 ++ b).length < 4)]
                      rw [List.take_append_of_le_length (by omega),
                        List.drop_append_of_le_length (by omega)]
                      cases hrec : decodeMsgGo g (r1.drop 4) with
                      | error e => rw [hrec, except_map_error] at ha; exact absurd ha (by simp)
                      | ok fa' =>
                        rw [hrec, except_map_ok, Except.ok.injEq] at ha
                        subst ha
                        rw [ih (r1.drop 4) fa' hrec b fb f hb (by simp; omega), except_map_ok]
                        simp
                  · rw [if_neg hw5] at ha
                    exact absurd ha (by simp)

/-- Successful decodes concatenate: fields come back in on-wire order. -/
theorem decode_message_append {a b : List Nat} {fa fb : List ProtoField}
    (ha : decode_message a = .ok fa) (hb : decode_message b = .ok fb) :
    decode_message (a ++ b) = .ok (fa ++ fb) :=
  decodeMsgGo_append (a.length + 1) a fa ha b fb ((a ++ b).length + 1) hb (by omega)

theorem decodeMsgGo_nil (f : Nat) : decodeMsgGo f [] = .ok [] := by
  cases f <;> rfl

theorem read_varint_enc_nil {v : Nat} (hv : v < 2 ^ 70) :
    read_varint (encode_varint v) = .ok (v, []) := by
  have := read_varint_enc [] hv
  rwa [List.append_nil] at this

theorem encode_varint_ne_nil (v : Nat) : encode_varint v ≠ [] := by
  unfold encode_varint encVarintGo
  by_cases h : (v >>> 7 == 0) = true <;> simp [h]

theorem key_lt {n wt : Nat} (hn : n < 2 ^ 67) (hwt : wt < 8) : (n <<< 3) ||| wt < 2 ^ 70 := by
  rw [lor_eq_add_of_lt n (show wt < 2 ^ 3 by norm_num; omega)]
  norm_num
  omega

theorem key_shift3 {n wt : Nat} (hwt : wt < 8) : ((n <<< 3) ||| wt) >>> 3 = n := by
  rw [lor_eq_add_of_lt n (show wt < 2 ^ 3 by norm_num; omega), Nat.shiftRight_eq_div_pow]
  norm_num
  omega

theorem key_and7 {n wt : Nat} (hwt : wt < 8) : ((n <<< 3) ||| wt) &&& 7 = wt := by
  rw [lor_eq_add_of_lt n (show wt < 2 ^ 3 by norm_num; omega)]
  have h7 := Nat.and_pow_two_sub_one_eq_mod (n * 2 ^ 3 + wt) 3
  norm_num at h7 ⊢
  omega

theorem decode_field_varint {n v : Nat} (hn1 : 1 ≤ n) (hn2 : n < 2 ^ 67) (hv : v < 2 ^ 70) :
    decode_message (encode_varint_field n v) = .ok [⟨n, 0, .vint v⟩] := by
  have hkey : (n <<< 3) ||| 0 < 2 ^ 70 := key_lt hn2 (by norm_num)
  unfold encode_varint_field encode_key
  rcases hK : encode_varint ((n <<< 3) ||| 0) with _ | ⟨d, ds⟩
  · exact absurd hK (encode_varint_ne_nil _)
  · rw [← hK, decode_message]
    have hrv : read_varint (encode_varint ((n <<< 3) ||| 0) ++ encode_varint v) =
        .ok ((n <<< 3) ||| 0, encode_varint v) := read_varint_enc _ hkey
    rw [hK, List.cons_append] at hrv ⊢
    simp only [List.length_cons, decodeMsgGo, hrv, except_bind_ok]
    simp only [key_shift3 (show (0:Nat) < 8 by norm_num), key_and7 (show (0:Nat) < 8 by norm_num)]
    rw [if_neg (by simp; omega), if_pos (by simp)]
    rw [read_varint_enc_nil hv, except_bind_ok]
    simp only [decodeMsgGo_nil, except_map_ok, List.nil_append]

theorem decode_field_bytes {n : Nat} {payload : List Nat} (hn1 : 1 ≤ n) (hn2 : n < 2 ^ 67)
    (hlen : payload.length < 2 ^ 70) :
    decode_message (encode_bytes_field n payload) = .ok [⟨n, 2, .vbytes payload⟩] := by
  have hkey : (n <<< 3) ||| 2 < 2 ^ 70 := key_lt hn2 (by norm_num)
  unfold encode_bytes_field encode_key encode_length_delimited
  rcases hK : encode_varint ((n <<< 3) ||| 2) with _ | ⟨d, ds⟩
  · exact absurd hK (encode_varint_ne_nil _)
  · rw [← hK, decode_message]
    have hrv : read_varint (encode_varint ((n <<< 3) ||| 2) ++
        (encode_varint payload.length ++ payload)) =
        .ok ((n <<< 3) ||| 2, encode_varint payload.length ++ payload) :=
      read_varint_enc _ hkey
    rw [hK, List.cons_append] at hrv ⊢
    simp only [List.length_cons, decodeMsgGo, hrv, except_bind_ok]
    simp only [key_shift3 (show (2:Nat) < 8 by norm_num), key_and7 (show (2:Nat) < 8 by norm_num)]
    rw [if_neg (by simp; omega), if_neg (by simp), if_neg (by simp), if_pos (by simp)]
    rw [read_varint_enc payload hlen, except_bind_ok]
    simp only [lt_self_iff_false, if_false, List.take_length, List.drop_length,
      decodeMsgGo_nil, except_map_ok, List.nil_append]

theorem decode_field_fixed64 {n : Nat} {bs : List Nat} (hn1 : 1 ≤ n) (hn2 : n < 2 ^ 67)
    (hbs : bs.length = 8) :
    decode_message (encode_key n 1 ++ bs) = .ok [⟨n, 1, .vbytes bs⟩] := by
  have hkey : (n <<< 3) ||| 1 < 2 ^ 70 := key_lt hn2 (by norm_num)
  unfold encode_key
  rcases hK : encode_varint ((n <<< 3) ||| 1) with _ | ⟨d, ds⟩
  · exact absurd hK (encode_varint_ne_nil _)
  · rw [← hK, decode_message]
    have hrv : read_varint (encode_varint ((n <<< 3) ||| 1) ++ bs) =
        .ok ((n <<< 3) ||| 1, bs) := read_varint_enc _ hkey
    rw [hK, List.cons_append] at hrv ⊢
    simp only [List.length_cons, decodeMsgGo, hrv, except_bind_ok]
    simp only [key_shift3 (show (1:Nat) < 8 by norm_num), key_and7 (show (1:Nat) < 8 by norm_num)]
    rw [if_neg (by simp; omega), if_neg (by simp), if_pos (by simp)]
    rw [if_neg (by omega)]
    rw [show (8 : Nat) = bs.length from hbs.symm, List.take_length, List.drop_length]
    simp only [decodeMsgGo_nil, except_map_ok, List.nil_append]

theorem decode_field_fixed32 {n : Nat} {bs : List Nat} (hn1 : 1 ≤ n) (hn2 : n < 2 ^ 67)
    (hbs : bs.length = 4) :
    decode_message (encode_key n 5 ++ bs) = .ok [⟨n, 5, .vbytes bs⟩] := by
  have hkey : (n <<< 3) ||| 5 < 2 ^ 70 := key_lt hn2 (by norm_num)
  unfold encode_key
  rcases hK : encode_varint ((n <<< 3) ||| 5) with _ | ⟨d, ds⟩
  · exact absurd hK (encode_varint_ne_nil _)
  · rw [← hK, decode_message]
    have hrv : read_varint (encode_varint ((n <<< 3) ||| 5) ++ bs) =
        .ok ((n <<< 3) ||| 5, bs) := read_varint_enc _ hkey
    rw [hK, List.cons_append] at hrv ⊢
    simp only [List.length_cons, decodeMsgGo, hrv, except_bind_ok]
    simp only [key_shift3 (show (5:Nat) < 8 by norm_num), key_and7 (show (5:Nat) < 8 by norm_num)]
    rw [if_neg (by simp; omega), if_neg (by simp), if_neg (by simp), if_neg (by simp),
      if_pos (by simp)]
    rw [if_neg (by omega)]
    rw [show (4 : Nat) = bs.length from hbs.symm, List.take_length, List.drop_length]
    simp only [decodeMsgGo_nil, except_map_ok, List.nil_append]

/-! ## quilt_parse.py — typed decoders

Identifiers decoded with `.decode("utf-8")` are kept as their UTF-8 byte
lists (see the header comment).  Dictionaries keyed by such strings become
association lists keyed by byte lists. -/

/-- A Python float as stored by the parsers: either a double decoded from a
fixed64 field (identified by its 64-bit pattern) or a float decoded from a
fixed32 field (by its 32-bit pattern; CPython widens float32 to float64
exactly, so the tagged 32-bit pattern determines the Python value). -/
inductive PyFloat where
  | ofBits64 (bits : Nat)
  | ofBits32 (bits : Nat)
  deriving DecidableEq

/-- The Python literal `0.0` (a double, bit pattern zero). -/
def pyFloatZero : PyFloat := .ofBits64 0

/-- IEEE-754 binary64 NaN test on a bit pattern (exponent all ones, nonzero
mantissa); Python's `x != x` holds exactly for NaN. -/
def isNan64 (bits : Nat) : Bool :=
  ((bits >>> 52) &&& 0x7FF == 0x7FF) && (bits &&& (2 ^ 52 - 1) != 0)

/-- IEEE-754 binary32 NaN test on a bit pattern. -/
def isNan32 (bits : Nat) : Bool :=
  ((bits >>> 23) &&& 0xFF == 0xFF) && (bits &&& (2 ^ 23 - 1) != 0)

/-- `x != x` on a stored float (float32 NaNs widen to float64 NaNs). -/
def PyFloat.isNan : PyFloat → Bool
  | .ofBits64 b => isNan64 b
  | .ofBits32 b => isNan32 b

/-- Python `dict` as an association list: one entry per key, insert-or-replace
keeps the original position (as CPython does). -/
def dinsert {κ α : Type} [DecidableEq κ] (k : κ) (v : α) : List (κ × α) → List (κ × α)
  | [] => [(k, v)]
  | (k', v') :: rest => if k' = k then (k, v) :: rest else (k', v') :: dinsert k v rest

/-- Python `dict` lookup (`d.get(k)` / `d[k]`). -/
def dget {κ α : Type} [DecidableEq κ] (k : κ) : List (κ × α) → Option α
  | [] => none
  | (k', v') :: rest => if k' = k then some v' else dget k rest

/-- Python `set.add`: append if absent. -/
def sinsert {α : Type} [DecidableEq α] (x : α) : List α → List α
  | [] => [x]
  | y :: rest => if y = x then y :: rest else y :: sinsert x rest

/-- `QuiltTimestamp`. -/
structure QuiltTimestamp where
  seconds : Nat
  nanos : Nat
  deriving DecidableEq

/-- `QuiltSystemInfo` (ids/names as UTF-8 bytes). -/
structure QuiltSystemInfo where
  system_id : List Nat
  name : List Nat
  timezone : List Nat
  deriving DecidableEq

/-- `QuiltEnergyMetricBucket`. -/
structure QuiltEnergyMetricBucket where
  start_time : QuiltTimestamp
  status : Option Nat
  energy_usage_kwh : PyFloat
  deriving DecidableEq

/-- `QuiltSpaceEnergyMetrics`. -/
structure QuiltSpaceEnergyMetrics where
  space_id : List Nat
  bucket_time_resolution : Option Nat
  energy_buckets : List QuiltEnergyMetricBucket
  deriving DecidableEq

/-- `QuiltSpaceHeader`. -/
structure QuiltSpaceHeader where
  space_id : List Nat
  created : Option QuiltTimestamp
  updated : Option QuiltTimestamp
  system_id : List Nat
  deriving DecidableEq

/-- `QuiltIndoorUnitHeader`. -/
structure QuiltIndoorUnitHeader where
  indoor_unit_id : List Nat
  created : Option QuiltTimestamp
  updated : Option QuiltTimestamp
  system_id : List Nat
  deriving DecidableEq

/-- `QuiltSpaceControls` (fixed32 setpoints kept as 32-bit patterns). -/
structure QuiltSpaceControls where
  hvac_mode : Option Nat
  setpoint_c : Option Nat
  cooling_setpoint_c : Option Nat
  heating_setpoint_c : Option Nat
  updated : Option QuiltTimestamp
  unknown_field7 : Option Nat
  comfort_setting_override : Option Nat
  comfort_setting_id : Option (List Nat)
  deriving DecidableEq

/-- `QuiltSpaceState`. -/
structure QuiltSpaceState where
  updated : Option QuiltTimestamp
  setpoint_c : Option Nat
  ambient_c : Option Nat
  hvac_state : Option Nat
  comfort_setting_id : Option (List Nat)
  deriving DecidableEq

/-- `QuiltSpaceSettings`. -/
structure QuiltSpaceSettings where
  name : Option (List Nat)
  timezone : Option (List Nat)
  deriving DecidableEq

/-- `QuiltSpace`. -/
structure QuiltSpace where
  header : QuiltSpaceHeader
  relationships_parent_space_id : Option (List Nat)
  settings : QuiltSpaceSettings
  controls : QuiltSpaceControls
  state : QuiltSpaceState
  deriving DecidableEq

/-- `QuiltIndoorUnitControls`. -/
structure QuiltIndoorUnitControls where
  updated : Option QuiltTimestamp
  light_color_code : Option Nat
  light_brightness : Option Nat
  light_animation : Option Nat
  fan_speed_mode : Option Nat
  fan_speed_percent : Option Nat
  louver_mode : Option Nat
  louver_fixed_position : Option Nat
  deriving DecidableEq

/-- `QuiltIndoorUnitRelationships`. -/
structure QuiltIndoorUnitRelationships where
  space_id : Option (List Nat)
  deriving DecidableEq

/-- `QuiltIndoorUnit`. -/
structure QuiltIndoorUnit where
  header : QuiltIndoorUnitHeader
  relationships : Option QuiltIndoorUnitRelationships
  controls : QuiltIndoorUnitControls
  deriving DecidableEq

/-- `QuiltComfortSettingHeader`. -/
structure QuiltComfortSettingHeader where
  comfort_setting_id : List Nat
  created : Option QuiltTimestamp
  updated : Option QuiltTimestamp
  system_id : List Nat
  deriving DecidableEq

/-- `QuiltComfortSettingAttributes`. -/
structure QuiltComfortSettingAttributes where
  updated : Option QuiltTimestamp
  name : Option (List Nat)
  fan_speed_mode : Option Nat
  fan_speed_percent : Option Nat
  heating_setpoint_c : Option Nat
  cooling_setpoint_c : Option Nat
  comfort_setting_type : Option Nat
  hvac_mode : Option Nat
  louver_mode : Option Nat
  louver_fixed_position : Option Nat
  deriving DecidableEq

/-- `QuiltComfortSettingRelationships`. -/
structure QuiltComfortSettingRelationships where
  updated : Option QuiltTimestamp
  space_id : Option (List Nat)
  deriving DecidableEq

/-- `QuiltComfortSetting`. -/
structure QuiltComfortSetting where
  header : QuiltComfortSettingHeader
  attributes : QuiltComfortSettingAttributes
  relationships : Option QuiltComfortSettingRelationships
  deriving DecidableEq

/-- `QuiltHdsSystem` (without the derived `notifier_topics` view, which no
claim concerns).  `topic_ids` maps a topic-name literal to the set of object
ids seen for it. -/
structure QuiltHdsSystem where
  system_id : Option (List Nat)
  spaces : List (List Nat × QuiltSpace)
  indoor_units : List (List Nat × QuiltIndoorUnit)
  indoor_units_by_space : List (List Nat × List QuiltIndoorUnit)
  comfort_settings : List (List Nat × QuiltComfortSetting)
  comfort_settings_by_space : List (List Nat × List QuiltComfortSetting)
  topic_ids : List (String × List (List Nat))
  deriving DecidableEq

/-- `fixed32_to_float(x.value) if x is not None else None`, the pervasive
optional-fixed32 pattern of the parsers. -/
def optFixed32 (f : Option ProtoField) : Except String (Option Nat) :=
  match f with
  | some p => (fixed32_to_float p.value.bytes).map some
  | none => pure none

/-- `_parse_timestamp(raw)`: catches `ProtoWireError` (returns `None`), needs
field 1 (seconds); field 2 (nanos) defaults to 0. -/
def _parse_timestamp (raw : List Nat) : Option QuiltTimestamp :=
  match decode_message raw with
  | .error _ => none
  | .ok fields =>
    match get_first fields 1 (some 0) with
    | none => none
    | some sec =>
      some ⟨sec.value.int, ((get_first fields 2 (some 0)).map (·.value.int)).getD 0⟩

/-- `_parse_header(raw)`: propagates decode errors; returns `None` when the
id (field 1) or system id (field 4) is absent. -/
def _parse_header (raw : List Nat) : Except String (Option QuiltSpaceHeader) := do
  let fields ← decode_message raw
  let sid := get_first fields 1 (some 2)
  let created := get_first fields 2 (some 2)
  let updated := get_first fields 3 (some 2)
  let system_id := get_first fields 4 (some 2)
  match sid, system_id with
  | some sidf, some sysf =>
    pure (some ⟨sidf.value.bytes, created.bind (fun c => _parse_timestamp c.value.bytes),
      updated.bind (fun u => _parse_timestamp u.value.bytes), sysf.value.bytes⟩)
  | _, _ => pure none

/-- `_parse_indoor_unit_header(raw)`: same header layout (1: id, 2: created,
3: updated, 4: system_id). -/
def _parse_indoor_unit_header (raw : List Nat) :
    Except String (Option QuiltIndoorUnitHeader) := do
  let fields ← decode_message raw
  let oid := get_first fields 1 (some 2)
  let created := get_first fields 2 (some 2)
  let updated := get_first fields 3 (some 2)
  let system_id := get_first fields 4 (some 2)
  match oid, system_id with
  | some oidf, some sysf =>
    pure (some ⟨oidf.value.bytes, created.bind (fun c => _parse_timestamp c.value.bytes),
      updated.bind (fun u => _parse_timestamp u.value.bytes), sysf.value.bytes⟩)
  | _, _ => pure none

/-- `_parse_settings(raw)`: field 1 = name, field 4 = timezone. -/
def _parse_settings (raw : List Nat) : Except String QuiltSpaceSettings := do
  let fields ← decode_message raw
  let name := get_first fields 1 (some 2)
  let tz := get_first fields 4 (some 2)
  pure ⟨name.map (·.value.bytes), tz.map (·.value.bytes)⟩

/-- `_parse_controls(raw)` for spaces. -/
def _parse_controls (raw : List Nat) : Except String QuiltSpaceControls := do
  let fields ← decode_message raw
  let hvac_mode := get_first fields 1 (some 0)
  let setpoint := get_first fields 2 (some 5)
  let updated := get_first fields 3 (some 2)
  let cooling := get_first fields 4 (some 5)
  let heating := get_first fields 5 (some 5)
  let unknown7 := get_first fields 7 (some 0)
  let override_f := get_first fields 8 (some 0)
  let comfort_id := get_first fields 9 (some 2)
  let setpoint_c ← optFixed32 setpoint
  let cooling_c ← optFixed32 cooling
  let heating_c ← optFixed32 heating
  pure ⟨hvac_mode.map (·.value.int), setpoint_c, cooling_c, heating_c,
    updated.bind (fun u => _parse_timestamp u.value.bytes),
    unknown7.map (·.value.int), override_f.map (·.value.int),
    comfort_id.map (·.value.bytes)⟩

/-- `_parse_state(raw)` for spaces. -/
def _parse_state (raw : List Nat) : Except String QuiltSpaceState := do
  let fields ← decode_message raw
  let updated := get_first fields 1 (some 2)
  let setpoint := get_first fields 2 (some 5)
  let ambient := get_first fields 3 (some 5)
  let hvac_state := get_first fields 4 (some 0)
  let comfort_id := get_first fields 5 (some 2)
  let setpoint_c ← optFixed32 setpoint
  let ambient_c ← optFixed32 ambient
  pure ⟨updated.bind (fun u => _parse_timestamp u.value.bytes), setpoint_c, ambient_c,
    hvac_state.map (·.value.int), comfort_id.map (·.value.bytes)⟩

/-- `_parse_relationships(raw)` for spaces: field 2 = parent space id. -/
def _parse_relationships (raw : List Nat) : Except String (Option (List Nat)) := do
  let fields ← decode_message raw
  pure ((get_first fields 2 (some 2)).map (·.value.bytes))

/-- `_parse_indoor_unit_relationships(raw)`: field 2 = space id. -/
def _parse_indoor_unit_relationships (raw : List Nat) :
    Except String QuiltIndoorUnitRelationships := do
  let fields ← decode_message raw
  pure ⟨(get_first fields 2 (some 2)).map (·.value.bytes)⟩

/-- `_parse_indoor_unit_controls(raw)`. -/
def _parse_indoor_unit_controls (raw : List Nat) :
    Except String QuiltIndoorUnitControls := do
  let fields ← decode_message raw
  let color := get_first fields 3 (some 0)
  let brightness := get_first fields 4 (some 5)
  let fan_mode := get_first fields 5 (some 0)
  let fan_percent := get_first fields 6 (some 5)
  let updated := get_first fields 7 (some 2)
  let louver_mode := get_first fields 10 (some 0)
  let louver_pos := get_first fields 11 (some 5)
  let anim := get_first fields 12 (some 0)
  let brightness_v ← optFixed32 brightness
  let fan_percent_v ← optFixed32 fan_percent
  let louver_pos_v ← optFixed32 louver_pos
  pure ⟨updated.bind (fun u => _parse_timestamp u.value.bytes),
    color.map (·.value.int), brightness_v, anim.map (·.value.int),
    fan_mode.map (·.value.int), fan_percent_v, louver_mode.map (·.value.int), louver_pos_v⟩

/-- `_parse_comfort_setting_header(raw)`. -/
def _parse_comfort_setting_header (raw : List Nat) :
    Except String (Option QuiltComfortSettingHeader) := do
  let fields ← decode_message raw
  let cid := get_first fields 1 (some 2)
  let created := get_first fields 2 (some 2)
  let updated := get_first fields 3 (some 2)
  let system_id := get_first fields 4 (some 2)
  match cid, system_id with
  | some cidf, some sysf =>
    pure (some ⟨cidf.value.bytes, created.bind (fun c => _parse_timestamp c.value.bytes),
      updated.bind (fun u => _parse_timestamp u.value.bytes), sysf.value.bytes⟩)
  | _, _ => pure none

/-- `_parse_comfort_setting_attributes(raw)`. -/
def _parse_comfort_setting_attributes (raw : List Nat) :
    Except String QuiltComfortSettingAttributes := do
  let fields ← decode_message raw
  let updated := get_first fields 1 (some 2)
  let name := get_first fields 2 (some 2)
  let fan_mode := get_first fields 3 (some 0)
  let fan_percent := get_first fields 4 (some 5)
  let heat := get_first fields 5 (some 5)
  let cool := get_first fields 6 (some 5)
  let cs_type := get_first fields 7 (some 0)
  let hvac_mode := get_first fields 8 (some 0)
  let louver_mode := get_first fields 9 (some 0)
  let louver_fixed := get_first fields 10 (some 5)
  let fan_percent_v ← optFixed32 fan_percent
  let heat_v ← optFixed32 heat
  let cool_v ← optFixed32 cool
  let louver_fixed_v ← optFixed32 louver_fixed
  pure ⟨updated.bind (fun u => _parse_timestamp u.value.bytes), name.map (·.value.bytes),
    fan_mode.map (·.value.int), fan_percent_v, heat_v, cool_v,
    cs_type.map (·.value.int), hvac_mode.map (·.value.int),
    louver_mode.map (·.value.int), louver_fixed_v⟩

/-- `_parse_comfort_setting_relationships(raw)`: catches `ProtoWireError`
(returns `None`). -/
def _parse_comfort_setting_relationships (raw : List Nat) :
    Option QuiltComfortSettingRelationships :=
  match decode_message raw with
  | .error _ => none
  | .ok fields =>
    some ⟨(get_first fields 1 (some 2)).bind (fun u => _parse_timestamp u.value.bytes),
      (get_first fields 2 (some 2)).map (·.value.bytes)⟩

/-- The body of the `parse_list_systems_response` loop for one repeated
field-1 entry: skips the entry when the id (field 1) is missing; the name
(field 2) defaults to the id, the timezone (field 3) to the empty string. -/
def parseSystemEntry (raw : List Nat) : Except String (Option QuiltSystemInfo) := do
  let msg ← decode_message raw
  let sid := get_first msg 1 (some 2)
  let name := get_first msg 2 (some 2)
  let tz := get_first msg 3 (some 2)
  match sid with
  | none => pure none
  | some sidf =>
    pure (some ⟨sidf.value.bytes, (name.map (·.value.bytes)).getD sidf.value.bytes,
      (tz.map (·.value.bytes)).getD []⟩)

/-- `parse_list_systems_response(data)`. -/
def parse_list_systems_response (data : List Nat) :
    Except String (List QuiltSystemInfo) := do
  let top ← decode_message data
  (get_all top 1 (some 2)).foldlM
    (fun out f => do
      match ← parseSystemEntry f.value.bytes with
      | none => pure out
      | some info => pure (out ++ [info]))
    []

/-- `topic_ids.setdefault(topic_name, set()).add(oid)`. -/
def topicAdd (name : String) (oid : List Nat) (d : List (String × List (List Nat))) :
    List (String × List (List Nat)) :=
  dinsert name (sinsert oid ((dget name d).getD [])) d

/-- `d.setdefault(k, []).append(v)`. -/
def dappend {α : Type} (k : List Nat) (v : α) (d : List (List Nat × List α)) :
    List (List Nat × List α) :=
  dinsert k (((dget k d).getD []) ++ [v]) d

/-- Python `box = box or s` on the `system_id_box` cell: `None` and the empty
string are falsy. -/
def pyOrBytes (box : Option (List Nat)) (s : List Nat) : Option (List Nat) :=
  match box with
  | some b => if b.isEmpty then some s else some b
  | none => some s

/-- The mutable state threaded through `parse_get_home_datastore_system_response`. -/
structure HdsAcc where
  spaces : List (List Nat × QuiltSpace)
  indoor_units : List (List Nat × QuiltIndoorUnit)
  indoor_units_by_space : List (List Nat × List QuiltIndoorUnit)
  comfort_settings : List (List Nat × QuiltComfortSetting)
  comfort_settings_by_space : List (List Nat × List QuiltComfortSetting)
  system_id_box : Option (List Nat)
  topic_ids : List (String × List (List Nat))
  deriving DecidableEq

/-- The `field_to_topic` table, in its source (insertion) order. -/
def field_to_topic : List (Nat × String) :=
  [(3, "space"), (5, "outdoor_unit_hardware"), (6, "outdoor_unit"),
   (7, "quilt_smart_module"), (8, "indoor_unit_hardware"), (9, "indoor_unit"),
   (10, "controller"), (11, "controller_remote_sensor"), (12, "controller_hardware"),
   (13, "comfort_setting"), (14, "schedule_day"), (15, "schedule_week"),
   (16, "software_update_info"), (17, "location"), (18, "remote_sensor")]

/-- Body of the topic-index loop: decode failures and a missing header or id
are skipped (`continue`); the id is recorded under the topic name, and the
system-id box is filled from header field 4 if still unset. -/
def hdsTopicStep (topic_name : String) (acc : HdsAcc) (obj_f : ProtoField) : HdsAcc :=
  match decode_message obj_f.value.bytes with
  | .error _ => acc
  | .ok obj_msg =>
    match get_first obj_msg 1 (some 2) with
    | none => acc
    | some header_f =>
      match decode_message header_f.value.bytes with
      | .error _ => acc
      | .ok header_msg =>
        let oid_f := get_first header_msg 1 (some 2)
        let sys_f := get_first header_msg 4 (some 2)
        match oid_f with
        | none => acc
        | some oidf =>
          let acc := { acc with topic_ids := topicAdd topic_name oidf.value.bytes acc.topic_ids }
          if acc.system_id_box.isNone then
            match sys_f with
            | some sf => { acc with system_id_box := some sf.value.bytes }
            | none => acc
          else acc

/-- `p(f.value) if f is not None else d`, the optional-sub-message pattern of
the HDS loops. -/
def optParseOr {α : Type} (p : List Nat → Except String α) (d : α) (f : Option ProtoField) :
    Except String α :=
  match f with
  | some pf => p pf.value.bytes
  | none => pure d

/-- Body of the IndoorUnit loop (top-level field 9): only the outer decode is
guarded by `try`; header/relationships/controls parse errors propagate. -/
def hdsIndoorUnitStep (acc : HdsAcc) (f : ProtoField) : Except String HdsAcc :=
  match decode_message f.value.bytes with
  | .error _ => .ok acc
  | .ok iu_fields => do
    let header_f := get_first iu_fields 1 (some 2)
    let rel_f := get_first iu_fields 2 (some 2)
    let controls_f := get_first iu_fields 4 (some 2)
    let header? ← optParseOr _parse_indoor_unit_header none header_f
    match header? with
    | none => pure acc
    | some header => do
      let box := pyOrBytes acc.system_id_box header.system_id
      let rel ← optParseOr
        (fun bs => (_parse_indoor_unit_relationships bs).map some) none rel_f
      let controls ← optParseOr _parse_indoor_unit_controls
        ⟨none, none, none, none, none, none, none, none⟩ controls_f
      let iu : QuiltIndoorUnit := ⟨header, rel, controls⟩
      let acc := { acc with
        system_id_box := box
        indoor_units := dinsert header.indoor_unit_id iu acc.indoor_units }
      let acc := match rel with
        | some r =>
          match r.space_id with
          | some sid => { acc with indoor_units_by_space := dappend sid iu acc.indoor_units_by_space }
          | none => acc
        | none => acc
      pure { acc with topic_ids := topicAdd "indoor_unit" header.indoor_unit_id acc.topic_ids }

/-- Body of the Space loop (top-level field 3): the object decode and all
sub-parsers may raise, which aborts the whole response parse. -/
def hdsSpaceStep (acc : HdsAcc) (f : ProtoField) : Except String HdsAcc := do
  let space_fields ← decode_message f.value.bytes
  let header_f := get_first space_fields 1 (some 2)
  let settings_f := get_first space_fields 3 (some 2)
  let controls_f := get_first space_fields 4 (some 2)
  let state_f := get_first space_fields 5 (some 2)
  let rel_f := get_first space_fields 2 (some 2)
  let header? ← optParseOr _parse_header none header_f
  match header? with
  | none => pure acc
  | some header => do
    let box := pyOrBytes acc.system_id_box header.system_id
    let settings ← optParseOr _parse_settings ⟨none, none⟩ settings_f
    let controls ← optParseOr _parse_controls
      ⟨none, none, none, none, none, none, none, none⟩ controls_f
    let state ← optParseOr _parse_state ⟨none, none, none, none, none⟩ state_f
    let parent_space_id ← optParseOr _parse_relationships none rel_f
    let sp : QuiltSpace := ⟨header, parent_space_id, settings, controls, state⟩
    pure { acc with
      system_id_box := box
      spaces := dinsert header.space_id sp acc.spaces
      topic_ids := topicAdd "space" header.space_id acc.topic_ids }

/-- Body of the ComfortSetting loop (top-level field 13). -/
def hdsComfortStep (acc : HdsAcc) (f : ProtoField) : Except String HdsAcc := do
  let cs_fields ← decode_message f.value.bytes
  let header_f := get_first cs_fields 1 (some 2)
  let attrs_f := get_first cs_fields 2 (some 2)
  let rel_f := get_first cs_fields 3 (some 2)
  let header? ← optParseOr _parse_comfort_setting_header none header_f
  match header?, attrs_f with
  | some header, some af => do
    let box := pyOrBytes acc.system_id_box header.system_id
    let attrs ← _parse_comfort_setting_attributes af.value.bytes
    let rel := rel_f.bind (fun rf => _parse_comfort_setting_relationships rf.value.bytes)
    let cs : QuiltComfortSetting := ⟨header, attrs, rel⟩
    let acc := { acc with
      system_id_box := box
      comfort_settings := dinsert header.comfort_setting_id cs acc.comfort_settings }
    let acc := match rel with
      | some r =>
        match r.space_id with
        | some sid =>
          { acc with comfort_settings_by_space := dappend sid cs acc.comfort_settings_by_space }
        | none => acc
      | none => acc
    pure { acc with topic_ids := topicAdd "comfort_setting" header.comfort_setting_id acc.topic_ids }
  | _, _ => pure acc

/-- `parse_get_home_datastore_system_response(data)`: topic-index loop, then
IndoorUnits (field 9), Spaces (field 3), ComfortSettings (field 13). -/
def parse_get_home_datastore_system_response (data : List Nat) :
    Except String QuiltHdsSystem := do
  let top ← decode_message data
  let acc0 : HdsAcc := ⟨[], [], [], [], [], none, []⟩
  let acc1 := field_to_topic.foldl
    (fun acc p => (get_all top p.1 (some 2)).foldl (hdsTopicStep p.2) acc) acc0
  let acc2 ← (get_all top 9 (some 2)).foldlM hdsIndoorUnitStep acc1
  let acc3 ← (get_all top 3 (some 2)).foldlM hdsSpaceStep acc2
  let acc4 ← (get_all top 13 (some 2)).foldlM hdsComfortStep acc3
  pure ⟨acc4.system_id_box, acc4.spaces, acc4.indoor_units, acc4.indoor_units_by_space,
    acc4.comfort_settings, acc4.comfort_settings_by_space, acc4.topic_ids⟩

/-- The body of the bucket loop of `parse_get_energy_metrics_response`: the
bucket decode may raise; a missing timestamp or energy field skips the
bucket; a fixed64 energy wins over a fixed32 one; NaN is coerced to `0.0`. -/
def parseEnergyBucket (raw : List Nat) : Except String (Option QuiltEnergyMetricBucket) := do
  let b_fields ← decode_message raw
  let ts_f := get_first b_fields 1 (some 2)
  let status_f := get_first b_fields 2 (some 0)
  let energy_f := (get_first b_fields 3 (some 1)).orElse (fun _ => get_first b_fields 3 (some 5))
  let ts := ts_f.bind (fun t => _parse_timestamp t.value.bytes)
  match ts, energy_f with
  | some ts, some ef => do
    let energy ←
      if ef.wire_type == 1 then (fixed64_to_double ef.value.bytes).map PyFloat.ofBits64
      else (fixed32_to_float ef.value.bytes).map PyFloat.ofBits32
    let energy := if energy.isNan then pyFloatZero else energy
    pure (some ⟨ts, status_f.map (·.value.int), energy⟩)
  | _, _ => pure none

/-- `parse_get_energy_metrics_response(data)`. -/
def parse_get_energy_metrics_response (data : List Nat) :
    Except String (List QuiltSpaceEnergyMetrics) := do
  let top ← decode_message data
  (get_all top 1 (some 2)).foldlM
    (fun out f => do
      let fields ← decode_message f.value.bytes
      let space_id_f := get_first fields 1 (some 2)
      let res_f := get_first fields 2 (some 0)
      match space_id_f with
      | none => pure out
      | some sf => do
        let buckets ← (get_all fields 3 (some 2)).foldlM
          (fun bs b => do
            match ← parseEnergyBucket b.value.bytes with
            | none => pure bs
            | some bucket => pure (bs ++ [bucket]))
          []
        pure (out ++ [⟨sf.value.bytes, res_f.map (·.value.int), buckets⟩]))
    []

/-! ## notifier_proto.py -/

/-- UTF-8 bytes of a string (`s.encode("utf-8")`). -/
def strUtf8 (s : String) : List Nat := s.toUTF8.toList.map (fun b => b.toNat)

/-- `encode_subscribe_request(req_type, topics, variant=...)`: the Python
`set` argument is a `Finset`; `sorted(topics)` is its lexicographically
sorted element list.  An unknown variant raises `ValueError`. -/
def encode_subscribe_request (req_type : Nat) (topics : Finset String) (variant : String) :
    Except String (List Nat) :=
  if variant ≠ "type1_topics2" ∧ variant ≠ "topics1_type2" then .error "unknown variant"
  else if variant = "type1_topics2" then
    .ok ((topics.sort (· ≤ ·)).foldl
      (fun msg topic => msg ++ encode_bytes_field 2 (strUtf8 topic))
      (encode_varint_field 1 req_type))
  else
    .ok (((topics.sort (· ≤ ·)).foldl
      (fun msg topic => msg ++ encode_bytes_field 1 (strUtf8 topic)) [])
      ++ encode_varint_field 2 req_type)

/-- `should_refresh_from_subscribe_response(payload)`. -/
def should_refresh_from_subscribe_response (payload : List Nat) : Bool :=
  match decode_message payload with
  | .error _ => true
  | .ok top =>
    match get_first top 1 (some 2) with
    | none => false
    | some event =>
      if event.value.bytes.isEmpty then false
      else
        match decode_message event.value.bytes with
        | .error _ => true
        | .ok event_msg =>
          if ¬ (get_all event_msg 1 (some 2)).isEmpty then true
          else if ¬ (get_all event_msg 3 (some 2)).isEmpty then true
          else false

/-! ## api.py — JWT expiry check

`QuiltApi._jwt_exp_unix` splits the JWT string on `"."`, base64url-decodes
the middle segment (after padding it to a multiple of 4) and reads the `exp`
claim out of the decoded JSON object; any failure yields `None`, which
`token_expires_soon` treats as "expires soon".  The models below reproduce
CPython's non-strict `binascii.a2b_base64` (invalid characters skipped, a
padding run ending a 2- or 3-char quad stops the decode, a dangling quad is
an error) and `json.loads` on bytes: `json.detect_encoding` picks the
encoding from BOMs and null-byte patterns, the bytes decode with the
`surrogatepass` error handler, and the scanner (rejected control characters,
`NaN`/`Infinity` constants, last duplicate key wins, numbers per the
scanner's regex, integer literals bounded by the 4300-digit string-conversion
limit) runs over the decoded code points.  `time.time()` is the explicit
`now` argument. -/

/-- `str.split(".")`. -/
def splitOnDot : List Char → List (List Char)
  | [] => [[]]
  | c :: rest =>
    if c = '.' then [] :: splitOnDot rest
    else
      match splitOnDot rest with
      | p :: t => (c :: p) :: t
      | [] => [[c]]

/-- Base64 value of a character, with the urlsafe translation `-`→`+`,
`_`→`/` applied (as `urlsafe_b64decode` does before decoding); `none` for
characters outside the (translated) alphabet. -/
def b64val (c : Char) : Option Nat :=
  let n := c.toNat
  if 65 ≤ n ∧ n ≤ 90 then some (n - 65)
  else if 97 ≤ n ∧ n ≤ 122 then some (n - 71)
  else if 48 ≤ n ∧ n ≤ 57 then some (n + 4)
  else if n = 43 ∨ n = 45 then some 62
  else if n = 47 ∨ n = 95 then some 63
  else none

/-- Emit the bytes of a partial final quad (2 chars → 1 byte, 3 → 2). -/
def b64EmitPartial : List Nat → List Nat
  | [q0, q1] => [q0 * 4 + q1 / 16]
  | [q0, q1, q2] => [q0 * 4 + q1 / 16, q1 % 16 * 16 + q2 / 4]
  | _ => []

/-- Emit the 3 bytes of a full quad. -/
def b64Emit4 : List Nat → List Nat
  | [q0, q1, q2, q3] => [q0 * 4 + q1 / 16, q1 % 16 * 16 + q2 / 4, q2 % 4 * 64 + q3]
  | _ => []

/-- CPython's non-strict `binascii.a2b_base64` loop: `quad` holds the 6-bit
values of the current quad, `pads` the pending padding count (reset by every
valid data character).  A `=` seen with 2 or 3 quad characters and enough
accumulated padding ends the decode; other `=` and all invalid characters
are skipped.  At end of input, a dangling quad of 1 (data-character count ≡ 1
mod 4) or of 2/3 (incorrect padding) is an error. -/
def a2bGo : List Char → List Nat → Nat → List Nat → Option (List Nat)
  | [], quad, _, out => if quad.length = 0 then some out else none
  | c :: rest, quad, pads, out =>
    if c = '=' then
      if 2 ≤ quad.length then
        if quad.length + (pads + 1) ≥ 4 then some (out ++ b64EmitPartial quad)
        else a2bGo rest quad (pads + 1) out
      else a2bGo rest quad pads out
    else
      match b64val c with
      | none => a2bGo rest quad pads out
      | some v =>
        if quad.length = 3 then a2bGo rest [] 0 (out ++ b64Emit4 (quad ++ [v]))
        else a2bGo rest (quad ++ [v]) 0 out

/-- `base64.urlsafe_b64decode` on a string (via its UTF-8 bytes; characters
≥ U+0080 encode to bytes outside the alphabet and are skipped, exactly as
skipping the character). -/
def urlsafe_b64decode (s : List Char) : Option (List Nat) := a2bGo s [] 0 []

/-! ### A model of `json.loads` (CPython's strict JSON scanner) -/

/-- A decoded JSON value.  Numbers with a fraction or exponent become
`jfloat m e` (the decimal `m × 10^e`); plain integers stay exact, matching
Python's int/float split.  Strings are code-point lists (Python `str`;
`surrogatepass` decoding and `\uXXXX` escapes can leave lone surrogates). -/
inductive JValue where
  | jnull
  | jbool (b : Bool)
  | jint (n : Int)
  | jfloat (m : Int) (e : Int)
  | jnan
  | jinf (neg : Bool)
  | jstr (s : List Nat)
  | jarr (xs : List JValue)
  | jobj (kvs : List (List Nat × JValue))

/-- JSON whitespace skip (space, tab, LF, CR). -/
def wsDrop (bs : List Nat) : List Nat :=
  bs.dropWhile (fun b => b == 32 || b == 9 || b == 10 || b == 13)

/-- Is `b` a UTF-8 continuation byte? -/
def isCont (b : Nat) : Bool := decide (0x80 ≤ b) && decide (b ≤ 0xBF)

/-- `bytes.decode("utf-8", "surrogatepass")`: code points of a UTF-8 byte
list; correct continuation counts, no overlongs, maximum U+10FFFF, and — via
the `surrogatepass` handler — the three-byte encodings of surrogates
(`ED A0..BF ..`) are accepted and passed through. -/
def utf8DecodeSP : List Nat → Option (List Nat)
  | [] => some []
  | b :: rest =>
    if b < 0x80 then (utf8DecodeSP rest).map (fun t => b :: t)
    else if 0xC2 ≤ b ∧ b ≤ 0xDF then
      match rest with
      | c1 :: r =>
        if isCont c1 then
          (utf8DecodeSP r).map (fun t => ((b - 0xC0) * 64 + (c1 - 0x80)) :: t)
        else none
      | _ => none
    else if b = 0xE0 then
      match rest with
      | c1 :: c2 :: r =>
        if (decide (0xA0 ≤ c1) && decide (c1 ≤ 0xBF) && isCont c2) = true then
          (utf8DecodeSP r).map
            (fun t => ((b - 0xE0) * 4096 + (c1 - 0x80) * 64 + (c2 - 0x80)) :: t)
        else none
      | _ => none
    else if 0xE1 ≤ b ∧ b ≤ 0xEF then
      match rest with
      | c1 :: c2 :: r =>
        if (isCont c1 && isCont c2) = true then
          (utf8DecodeSP r).map
            (fun t => ((b - 0xE0) * 4096 + (c1 - 0x80) * 64 + (c2 - 0x80)) :: t)
        else none
      | _ => none
    else if b = 0xF0 then
      match rest with
      | c1 :: c2 :: c3 :: r =>
        if (decide (0x90 ≤ c1) && decide (c1 ≤ 0xBF) && isCont c2 && isCont c3) = true then
          (utf8DecodeSP r).map (fun t =>
            ((b - 0xF0) * 262144 + (c1 - 0x80) * 4096 + (c2 - 0x80) * 64 + (c3 - 0x80)) :: t)
        else none
      | _ => none
    else if 0xF1 ≤ b ∧ b ≤ 0xF3 then
      match rest with
      | c1 :: c2 :: c3 :: r =>
        if (isCont c1 && isCont c2 && isCont c3) = true then
          (utf8DecodeSP r).map (fun t =>
            ((b - 0xF0) * 262144 + (c1 - 0x80) * 4096 + (c2 - 0x80) * 64 + (c3 - 0x80)) :: t)
        else none
      | _ => none
    else if b = 0xF4 then
      match rest with
      | c1 :: c2 :: c3 :: r =>
        if (decide (0x80 ≤ c1) && decide (c1 ≤ 0x8F) && isCont c2 && isCont c3) = true then
          (utf8DecodeSP r).map (fun t =>
            ((b - 0xF0) * 262144 + (c1 - 0x80) * 4096 + (c2 - 0x80) * 64 + (c3 - 0x80)) :: t)
        else none
      | _ => none
    else none

/-- `bytes.decode("utf-16-le"/"utf-16-be", "surrogatepass")` (fuelled; each
step consumes two bytes): 2-byte units, high+low surrogate pairs combined,
lone surrogates passed through, an odd trailing byte is an error. -/
def utf16Go (be : Bool) : Nat → List Nat → Option (List Nat)
  | 0, _ => none
  | _, [] => some []
  | _, [_] => none
  | fuel + 1, b0 :: b1 :: rest =>
    let u := if be then b0 * 256 + b1 else b1 * 256 + b0
    if 0xD800 ≤ u ∧ u ≤ 0xDBFF then
      match rest with
      | b2 :: b3 :: r2 =>
        let u2 := if be then b2 * 256 + b3 else b3 * 256 + b2
        if 0xDC00 ≤ u2 ∧ u2 ≤ 0xDFFF then
          (utf16Go be fuel r2).map
            (fun t => (0x10000 + (u - 0xD800) * 1024 + (u2 - 0xDC00)) :: t)
        else (utf16Go be fuel rest).map (fun t => u :: t)
      | _ => (utf16Go be fuel rest).map (fun t => u :: t)
    else (utf16Go be fuel rest).map (fun t => u :: t)

/-- The `utf-16-le`/`utf-16-be` decode entry point. -/
def utf16DecodeSP (be : Bool) (bs : List Nat) : Option (List Nat) :=
  utf16Go be (bs.length + 1) bs

/-- `bytes.decode("utf-32-le"/"utf-32-be", "surrogatepass")`: 4-byte units,
values above U+10FFFF and partial trailing units are errors; surrogate code
points pass through. -/
def utf32DecodeSP (be : Bool) : List Nat → Option (List Nat)
  | [] => some []
  | b0 :: b1 :: b2 :: b3 :: rest =>
    let u := if be then ((b0 * 256 + b1) * 256 + b2) * 256 + b3
             else ((b3 * 256 + b2) * 256 + b1) * 256 + b0
    if u ≤ 0x10FFFF then (utf32DecodeSP be rest).map (fun t => u :: t) else none
  | _ => none

/-- `json.loads`' byte handling: `json.detect_encoding` (BOMs first — the
UTF-32 BOMs before the UTF-16 ones, since `FF FE 00 00` prefixes both — then
the null-byte heuristics for 4-or-more and exactly-2-byte inputs), followed
by decoding with `surrogatepass`.  The BOM-determined `utf-32`/`utf-16`/
`utf-8-sig` codecs strip the BOM; the heuristic ones do not strip anything. -/
def decodeJsonBytes : List Nat → Option (List Nat)
  | 0x00 :: 0x00 :: 0xFE :: 0xFF :: rest => utf32DecodeSP true rest
  | 0xFF :: 0xFE :: 0x00 :: 0x00 :: rest => utf32DecodeSP false rest
  | 0xFE :: 0xFF :: rest => utf16DecodeSP true rest
  | 0xFF :: 0xFE :: rest => utf16DecodeSP false rest
  | 0xEF :: 0xBB :: 0xBF :: rest => utf8DecodeSP rest
  | b0 :: b1 :: b2 :: b3 :: rest =>
    if b0 = 0 then
      if b1 ≠ 0 then utf16DecodeSP true (b0 :: b1 :: b2 :: b3 :: rest)
      else utf32DecodeSP true (b0 :: b1 :: b2 :: b3 :: rest)
    else if b1 = 0 then
      if b2 ≠ 0 ∨ b3 ≠ 0 then utf16DecodeSP false (b0 :: b1 :: b2 :: b3 :: rest)
      else utf32DecodeSP false (b0 :: b1 :: b2 :: b3 :: rest)
    else utf8DecodeSP (b0 :: b1 :: b2 :: b3 :: rest)
  | [b0, b1] =>
    if b0 = 0 then utf16DecodeSP true [b0, b1]
    else if b1 = 0 then utf16DecodeSP false [b0, b1]
    else utf8DecodeSP [b0, b1]
  | bs => utf8DecodeSP bs

/-- Hexadecimal digit value of a byte. -/
def hexVal (b : Nat) : Option Nat :=
  if 48 ≤ b ∧ b ≤ 57 then some (b - 48)
  else if 97 ≤ b ∧ b ≤ 102 then some (b - 87)
  else if 65 ≤ b ∧ b ≤ 70 then some (b - 55)
  else none

/-- The JSON string scanner, after the opening quote: returns the decoded
content code points and the input after the closing quote.  Control
characters are rejected, escapes are the 8 single-character ones plus
`\uXXXX` with surrogate-pair combination (a high surrogate not followed by
a low-surrogate escape stays lone, as in CPython). -/
def parseJsonStringGo : Nat → List Nat → Option (List Nat × List Nat)
  | 0, _ => none
  | _, [] => none
  | fuel + 1, b :: rest =>
    if b = 34 then some ([], rest)
    else if b < 32 then none
    else if b = 92 then
      match rest with
      | 34 :: r => (parseJsonStringGo fuel r).map (fun p => (34 :: p.1, p.2))
      | 92 :: r => (parseJsonStringGo fuel r).map (fun p => (92 :: p.1, p.2))
      | 47 :: r => (parseJsonStringGo fuel r).map (fun p => (47 :: p.1, p.2))
      | 98 :: r => (parseJsonStringGo fuel r).map (fun p => (8 :: p.1, p.2))
      | 102 :: r => (parseJsonStringGo fuel r).map (fun p => (12 :: p.1, p.2))
      | 110 :: r => (parseJsonStringGo fuel r).map (fun p => (10 :: p.1, p.2))
      | 114 :: r => (parseJsonStringGo fuel r).map (fun p => (13 :: p.1, p.2))
      | 116 :: r => (parseJsonStringGo fuel r).map (fun p => (9 :: p.1, p.2))
      | 117 :: h1 :: h2 :: h3 :: h4 :: r =>
        match hexVal h1, hexVal h2, hexVal h3, hexVal h4 with
        | some v1, some v2, some v3, some v4 =>
          let c := ((v1 * 16 + v2) * 16 + v3) * 16 + v4
          if 0xD800 ≤ c ∧ c ≤ 0xDBFF then
            match r with
            | 92 :: 117 :: k1 :: k2 :: k3 :: k4 :: r2 =>
              match hexVal k1, hexVal k2, hexVal k3, hexVal k4 with
              | some w1, some w2, some w3, some w4 =>
                let c2 := ((w1 * 16 + w2) * 16 + w3) * 16 + w4
                if 0xDC00 ≤ c2 ∧ c2 ≤ 0xDFFF then
                  (parseJsonStringGo fuel r2).map
                    (fun p => ((0x10000 + (c - 0xD800) * 1024 + (c2 - 0xDC00)) :: p.1, p.2))
                else
                  (parseJsonStringGo fuel r).map (fun p => (c :: p.1, p.2))
              | _, _, _, _ =>
                (parseJsonStringGo fuel r).map (fun p => (c :: p.1, p.2))
            | _ => (parseJsonStringGo fuel r).map (fun p => (c :: p.1, p.2))
          else (parseJsonStringGo fuel r).map (fun p => (c :: p.1, p.2))
        | _, _, _, _ => none
      | _ => none
    else (parseJsonStringGo fuel rest).map (fun p => (b :: p.1, p.2))

/-- The JSON string scanner (fuelled wrapper; each step consumes input). -/
def parseJsonString (bs : List Nat) : Option (List Nat × List Nat) :=
  parseJsonStringGo (bs.length + 1) bs

/-- Split off leading ASCII digits. -/
def takeDigits : List Nat → (List Nat × List Nat)
  | [] => ([], [])
  | b :: rest =>
    if 48 ≤ b ∧ b ≤ 57 then
      let p := takeDigits rest
      (b :: p.1, p.2)
    else ([], b :: rest)

/-- Natural value of a digit-byte list. -/
def digitsToNat (ds : List Nat) : Nat := ds.foldl (fun a d => a * 10 + (d - 48)) 0

/-- The scanner's number regex
`(-?(0|[1-9]\d*))(\.\d+)?([eE][-+]?\d+)?`: an integer without fraction or
exponent stays `jint` and goes through `int()`, which rejects literals over
the 4300-digit string-conversion limit; otherwise `jfloat m e` for the
decimal `m × 10^e`.  An unmatched `.`/`e` suffix is left unconsumed (the
scanner stops there). -/
def parseNumber (bs : List Nat) : Option (JValue × List Nat) :=
  let sp : Bool × List Nat := match bs with | 45 :: r => (true, r) | _ => (false, bs)
  let neg := sp.1
  let ip : Option (List Nat × List Nat) :=
    match sp.2 with
    | 48 :: r1 => some ([48], r1)
    | b :: r1 => if 49 ≤ b ∧ b ≤ 57 then
        let p := takeDigits r1
        some (b :: p.1, p.2)
      else none
    | [] => none
  match ip with
  | none => none
  | some (intDigits, rest1) =>
    let fr : List Nat × List Nat :=
      match rest1 with
      | 46 :: r2 =>
        let p := takeDigits r2
        if p.1.isEmpty then ([], rest1) else (p.1, p.2)
      | _ => ([], rest1)
    let fracDigits := fr.1
    let restF := fr.2
    let ex : Option Int × List Nat :=
      match restF with
      | e :: r3 =>
        if e = 101 ∨ e = 69 then
          let sgn : Bool × List Nat :=
            match r3 with
            | 45 :: r4 => (true, r4)
            | 43 :: r4 => (false, r4)
            | _ => (false, r3)
          let p := takeDigits sgn.2
          if p.1.isEmpty then (none, restF)
          else (some (if sgn.1 then -(digitsToNat p.1 : Int) else (digitsToNat p.1 : Int)), p.2)
        else (none, restF)
      | _ => (none, restF)
    let expVal := ex.1
    let rest2 := ex.2
    if fracDigits.isEmpty ∧ expVal = none then
      if 4300 < intDigits.length then none
      else
        let n : Int := digitsToNat intDigits
        some (.jint (if neg then -n else n), rest2)
    else
      let m : Int := digitsToNat (intDigits ++ fracDigits)
      let m := if neg then -m else m
      some (.jfloat m (expVal.getD 0 - fracDigits.length), rest2)

/-- Is `pre` a prefix of `bs`?  Returns the remainder. -/
def stripPrefixBytes (pre bs : List Nat) : Option (List Nat) :=
  match pre, bs with
  | [], r => some r
  | p :: ps, b :: rs => if b = p then stripPrefixBytes ps rs else none
  | _ :: _, [] => none

/-- Parser mode: a plain value, or the body of an object/array being
accumulated (entered just after `{` / `[` or after a comma). -/
inductive JsonMode where
  | value
  | objBody (acc : List (List Nat × JValue)) (first : Bool)
  | arrBody (acc : List JValue) (first : Bool)

/-- The recursive JSON scanner, fuelled (the entry point supplies ample
fuel; every nesting step consumes input).  `value`/`objBody`/`arrBody` are
entered with leading whitespace already dropped. -/
def jsonRun : Nat → JsonMode → List Nat → Option (JValue × List Nat)
  | 0, _, _ => none
  | fuel + 1, .value, bs =>
    match bs with
    | 34 :: rest => (parseJsonString rest).map (fun p => (.jstr p.1, p.2))
    | 123 :: rest => jsonRun fuel (.objBody [] true) (wsDrop rest)
    | 91 :: rest => jsonRun fuel (.arrBody [] true) (wsDrop rest)
    | _ =>
      match stripPrefixBytes [116, 114, 117, 101] bs with
      | some r => some (.jbool true, r)
      | none =>
        match stripPrefixBytes [102, 97, 108, 115, 101] bs with
        | some r => some (.jbool false, r)
        | none =>
          match stripPrefixBytes [110, 117, 108, 108] bs with
          | some r => some (.jnull, r)
          | none =>
            match stripPrefixBytes [78, 97, 78] bs with
            | some r => some (.jnan, r)
            | none =>
              match stripPrefixBytes [73, 110, 102, 105, 110, 105, 116, 121] bs with
              | some r => some (.jinf false, r)
              | none =>
                match stripPrefixBytes [45, 73, 110, 102, 105, 110, 105, 116, 121] bs with
                | some r => some (.jinf true, r)
                | none => parseNumber bs
  | fuel + 1, .objBody acc first, bs =>
    match bs with
    | 125 :: rest => if first then some (.jobj acc, rest) else none
    | 34 :: rest =>
      match parseJsonString rest with
      | none => none
      | some (key, r1) =>
        match wsDrop r1 with
        | 58 :: r3 =>
          match jsonRun fuel .value (wsDrop r3) with
          | none => none
          | some (v, r5) =>
            let acc := acc ++ [(key, v)]
            match wsDrop r5 with
            | 44 :: r7 => jsonRun fuel (.objBody acc false) (wsDrop r7)
            | 125 :: r7 => some (.jobj acc, r7)
            | _ => none
        | _ => none
    | _ => none
  | fuel + 1, .arrBody acc first, bs =>
    match bs, first with
    | 93 :: rest, true => some (.jarr acc, rest)
    | _, _ =>
      match jsonRun fuel .value bs with
      | none => none
      | some (v, r) =>
        let acc := acc ++ [v]
        match wsDrop r with
        | 44 :: r3 => jsonRun fuel (.arrBody acc false) (wsDrop r3)
        | 93 :: r3 => some (.jarr acc, r3)
        | _ => none

/-- `json.loads` on bytes: detect the encoding, decode with `surrogatepass`,
scan one value, and allow only whitespace after it. -/
def json_loads (bs : List Nat) : Option JValue :=
  match decodeJsonBytes bs with
  | none => none
  | some cps =>
    match jsonRun (2 * cps.length + 4) .value (wsDrop cps) with
    | some (v, rest) => if (wsDrop rest).isEmpty then some v else none
    | none => none

/-- Python dict lookup on the decoded object: the last duplicate key wins
(CPython keeps the last assignment). -/
def jsonGet (key : List Nat) : List (List Nat × JValue) → Option JValue
  | [] => none
  | (k, v) :: rest =>
    match jsonGet key rest with
    | some r => some r
    | none => if k = key then some v else none

/-- The whitespace `int(str)` strips around the literal
(`Py_UNICODE_ISSPACE`): ASCII 9–13 and space, NEL, NBSP, and the Unicode
space separators and line/paragraph separators. -/
def pyIntWs (c : Nat) : Bool :=
  (decide (9 ≤ c) && decide (c ≤ 13)) || c == 32 || c == 0x85 || c == 0xA0 ||
  c == 0x1680 || (decide (0x2000 ≤ c) && decide (c ≤ 0x200A)) || c == 0x2028 ||
  c == 0x2029 || c == 0x202F || c == 0x205F || c == 0x3000

/-- First code point of each run of ten consecutive decimal digits 0–9
(Unicode category Nd), as `int(str)` accepts them (`Py_UNICODE_TODECIMAL`). -/
def pyDigitBases : List Nat :=
  [0x30, 0x660, 0x6F0, 0x7C0, 0x966, 0x9E6, 0xA66, 0xAE6, 0xB66, 0xBE6,
   0xC66, 0xCE6, 0xD66, 0xDE6, 0xE50, 0xED0, 0xF20, 0x1040, 0x1090, 0x17E0,
   0x1810, 0x1946, 0x19D0, 0x1A80, 0x1A90, 0x1B50, 0x1BB0, 0x1C40, 0x1C50,
   0xA620, 0xA8D0, 0xA900, 0xA9D0, 0xA9F0, 0xAA50, 0xABF0, 0xFF10, 0x104A0,
   0x10D30, 0x11066, 0x110F0, 0x11136, 0x111D0, 0x112F0, 0x11450, 0x114D0,
   0x11650, 0x116C0, 0x11730, 0x118E0, 0x11950, 0x11C50, 0x11D50, 0x11DA0,
   0x16A60, 0x16AC0, 0x16B50, 0x1D7CE, 0x1D7D8, 0x1D7E2, 0x1D7EC, 0x1D7F6,
   0x1E140, 0x1E2F0, 0x1E950, 0x1FBF0]

/-- Decimal value of a code point, over every Nd digit run. -/
def pyDigitVal (c : Nat) : Option Nat :=
  match pyDigitBases.find? (fun b => decide (b ≤ c) && decide (c < b + 10)) with
  | some b => some (c - b)
  | none => none

/-- `int(s)` on a string: optional surrounding whitespace, an optional sign,
then decimal digits (any Unicode Nd digit) with single underscores between
digit groups; literals over the 4300-digit string-conversion limit raise. -/
def pyIntOfStr (s : List Nat) : Option Int :=
  let t := (s.dropWhile pyIntWs).reverse
  let t := (t.dropWhile pyIntWs).reverse
  let sp : Bool × List Nat := match t with
    | 45 :: r => (true, r)
    | 43 :: r => (false, r)
    | _ => (false, t)
  let rec go : List Nat → Bool → Option (Nat × Nat) → Option (Nat × Nat)
    | [], afterU, acc => if afterU then none else acc
    | d :: rest, afterU, acc =>
      match pyDigitVal d with
      | some v =>
        let a := acc.getD (0, 0)
        go rest false (some (a.1 * 10 + v, a.2 + 1))
      | none =>
        if d = 95 then
          match acc, afterU with
          | some _, false => go rest true acc
          | _, _ => none
        else none
  match go sp.2 false none with
  | some (n, cnt) =>
    if 4300 < cnt then none else some (if sp.1 then -(n : Int) else (n : Int))
  | none => none

/-- Round `a / b` (for `b > 0`) to the nearest integer, ties to even. -/
def rndHalfEven (a b : Nat) : Nat :=
  let q := a / b
  let r := a % b
  if 2 * r < b then q
  else if b < 2 * r then q + 1
  else if q % 2 = 0 then q else q + 1

/-- Digit count of `n` in base `b` (fuelled, tail-recursive; 0 for `n = 0`). -/
def digLenGo (b : Nat) : Nat → Nat → Nat → Nat
  | 0, _, acc => acc
  | f + 1, n, acc => if n = 0 then acc else digLenGo b f (n / b) (acc + 1)

/-- Number of binary digits of `n` (`n.bit_length()`). -/
def bitLen (n : Nat) : Nat := digLenGo 2 (n + 1) n 0

/-- Number of decimal digits of `n`. -/
def decLen (n : Nat) : Nat := digLenGo 10 (n + 1) n 0

/-- Is `den · 2^g ≤ num`, for a possibly negative `g`? -/
def shiftLe (den num : Nat) (g : Int) : Bool :=
  if 0 ≤ g then decide (den * 2 ^ g.toNat ≤ num)
  else decide (den ≤ num * 2 ^ (-g).toNat)

/-- `⌊log₂ (num / den)⌋` for `num, den ≥ 1`. -/
def ratLog2 (num den : Nat) : Int :=
  let g : Int := (bitLen num : Int) - (bitLen den : Int)
  if shiftLe den num g then g else g - 1

/-- `int(float(s))` for the non-negative decimal `m × 10^e`: CPython's
`float()` rounds the decimal to the nearest binary64 (ties to even, 53-bit
mantissa, minimum exponent −1074) and `int()` truncates; `none` when the
value rounds to infinity, where `int(inf)` raises `OverflowError`.  A
decimal of `d` digits lies in `[10^(d-1+e), 10^(d+e))`, so `d + e ≥ 311`
forces a value above `2^1024` (infinity) and `d + e ≤ −340` one below
`2^−1075` (which rounds to `0.0`); within that band the exact rational
rounds directly. -/
def decB64TruncPos (m : Nat) (e : Int) : Option Nat :=
  if m = 0 then some 0
  else
    let mag : Int := (decLen m : Int) + e
    if 311 ≤ mag then none
    else if mag ≤ -340 then some 0
    else
      let num := if 0 ≤ e then m * 10 ^ e.toNat else m
      let den := if 0 ≤ e then 1 else 10 ^ (-e).toNat
      let q := ratLog2 num den
      let p : Int := max (q - 52) (-1074)
      if 0 ≤ p then
        let n0 := rndHalfEven num (den * 2 ^ p.toNat)
        if 2 ^ 1024 ≤ n0 * 2 ^ p.toNat then none else some (n0 * 2 ^ p.toNat)
      else some (rndHalfEven (num * 2 ^ (-p).toNat) den / 2 ^ (-p).toNat)

/-- `int(float(...))` of a signed decimal `m × 10^e` (truncation toward 0). -/
def decB64TruncInt (m e : Int) : Option Int :=
  (decB64TruncPos m.natAbs e).map (fun n => if m < 0 then -(n : Int) else (n : Int))

/-- `int(exp)` on the JSON value found under `"exp"`: exact for ints and
bools, float values round to binary64 and truncate toward zero (infinite
results raise), digit parsing for strings; `None` (null), NaN/Infinity and
containers raise (→ `none`). -/
def pyInt : JValue → Option Int
  | .jint n => some n
  | .jfloat m e => decB64TruncInt m e
  | .jbool b => some (if b then 1 else 0)
  | .jstr s => pyIntOfStr s
  | _ => none

/-- The payload pipeline of `_jwt_exp_unix`: pad the base64url segment to a
multiple of 4 (`payload_b64 += "=" * (-len(payload_b64) % 4)`), decode it,
and JSON-parse the bytes. -/
def jwtPayloadJson (payload_b64 : List Char) : Option JValue :=
  let padded := payload_b64 ++ List.replicate ((4 - payload_b64.length % 4) % 4) '='
  match urlsafe_b64decode padded with
  | none => none
  | some bytes => json_loads bytes

/-- `QuiltApi._jwt_exp_unix(jwt)`: split on `"."`, pad and base64url-decode
segment 1, JSON-parse it, read `exp` (`payload.get("exp")`); every failure
path yields `none`. -/
def _jwt_exp_unix (jwt : List Char) : Option Int :=
  let parts := splitOnDot jwt
  if parts.length < 2 then none
  else
    match jwtPayloadJson (parts.getD 1 []) with
    | some (.jobj kvs) =>
      match jsonGet [101, 120, 112] kvs with
      | none => none
      | some v => pyInt v
    | _ => none

/-- `QuiltApi.token_expires_soon(within_seconds)`: `now` stands for
`int(time.time())`. -/
def token_expires_soon (jwt : List Char) (now within_seconds : Int) : Bool :=
  match _jwt_exp_unix jwt with
  | none => true
  | some exp => decide (exp ≤ now + within_seconds)

/-! ## Claim theorems -/

theorem readVarintGo_allCont_error :
    ∀ (bs : List Nat), bs ≠ [] → (∀ b ∈ bs, b &&& 0x80 ≠ 0) →
      ∀ (rest : List Nat) (r s : Nat), 70 < s + 7 * bs.length →
      readVarintGo (bs ++ rest) r s = .error "varint too long" := by
  intro bs
  induction bs with
  | nil => intro h; exact absurd rfl h
  | cons b tl ih =>
    intro _ hcont rest r s hlim
    have hb : ¬ (b &&& 0x80 == 0) = true := by
      simp only [beq_iff_eq]
      exact hcont b (List.mem_cons_self b tl)
    simp only [List.cons_append, readVarintGo, hb, if_false, Bool.false_eq_true]
    by_cases hs : s + 7 > 70
    · rw [if_pos hs]
    · rw [if_neg hs]
      cases tl with
      | nil => simp only [List.length_cons, List.length_nil] at hlim; omega
      | cons c tl2 =>
        refine ih (by simp) (fun x hx => hcont x (List.mem_cons_of_mem b hx)) rest _ (s + 7) ?_
        simp only [List.length_cons] at hlim ⊢
        omega

theorem readVarintGo_allCont_ok :
    ∀ (c : List Nat), (∀ b ∈ c, b &&& 0x80 ≠ 0) →
      ∀ (t : Nat), t &&& 0x80 = 0 → ∀ (rest : List Nat) (r s : Nat), s + 7 * c.length ≤ 70 →
      (readVarintGo (c ++ t :: rest) r s).isOk = true := by
  intro c
  induction c with
  | nil =>
    intro _ t ht rest r s _
    simp [readVarintGo, ht, Except.isOk, Except.toBool]
  | cons b tl ih =>
    intro hcont t ht rest r s hlim
    have hb : ¬ (b &&& 0x80 == 0) = true := by
      simp only [beq_iff_eq]
      exact hcont b (List.mem_cons_self b tl)
    simp only [List.cons_append, readVarintGo, hb, if_false, Bool.false_eq_true]
    rw [if_neg (by simp only [List.length_cons] at hlim; omega)]
    refine ih (fun x hx => hcont x (List.mem_cons_of_mem b hx)) t ht rest _ (s + 7) ?_
    simp only [List.length_cons] at hlim
    omega

/-- C1 (counterexample): an 11-byte varint that terminates on its 11th byte
— so one that does **not** terminate within 10 bytes — is accepted by
`decode_message` (with value `2^70`) instead of failing as the claim
requires. -/
theorem claim_C1_counterexample :
    decode_message (0x08 :: (List.replicate 10 0x80 ++ [0x01])) =
      .ok [⟨1, 0, .vint (1 <<< 70)⟩] := by decide

/-- C1 (amended): the varint reader rejects a varint only when it fails to
terminate within **11** bytes (the `shift > 70` check fires on the 11th
continuation byte): (i) eleven continuation bytes make `_read_varint` fail
with "varint too long", (ii) `decode_message` propagates that failure for a
field-1 varint value, and (iii) ten continuation bytes followed by a
terminating byte are accepted. -/
theorem claim_C1 :
    (∀ (bs rest : List Nat), bs.length = 11 → (∀ b ∈ bs, b &&& 0x80 ≠ 0) →
      read_varint (bs ++ rest) = .error "varint too long") ∧
    (∀ (bs rest : List Nat), bs.length = 11 → (∀ b ∈ bs, b &&& 0x80 ≠ 0) →
      decode_message (0x08 :: (bs ++ rest)) = .error "varint too long") ∧
    (∀ (c : List Nat) (t : Nat) (rest : List Nat), c.length = 10 →
      (∀ b ∈ c, b &&& 0x80 ≠ 0) → t &&& 0x80 = 0 →
      (read_varint (c ++ t :: rest)).isOk = true) := by
  have herr : ∀ (bs rest : List Nat), bs.length = 11 → (∀ b ∈ bs, b &&& 0x80 ≠ 0) →
      read_varint (bs ++ rest) = .error "varint too long" := by
    intro bs rest hlen hcont
    have hne : bs ≠ [] := by intro h; rw [h] at hlen; simp at hlen
    exact readVarintGo_allCont_error bs hne hcont rest 0 0 (by omega)
  refine ⟨herr, ?_, ?_⟩
  · intro bs rest hlen hcont
    have hrv : read_varint (0x08 :: (bs ++ rest)) = .ok (8, bs ++ rest) := rfl
    rw [decode_message]
    simp only [List.length_cons, decodeMsgGo, hrv, except_bind_ok]
    rw [herr bs rest hlen hcont]
    simp [except_bind_error]
    decide
  · intro c t rest hlen hcont ht
    exact readVarintGo_allCont_ok c hcont t ht rest 0 0 (by omega)

/-- C1 (witness). -/
theorem claim_C1_witness :
    read_varint (List.replicate 11 0x80 ++ []) = .error "varint too long" ∧
    decode_message (0x08 :: (List.replicate 11 0x80 ++ [])) = .error "varint too long" ∧
    (read_varint (List.replicate 10 0x80 ++ 0x01 :: [])).isOk = true :=
  ⟨claim_C1.1 _ _ (by decide) (by decide),
   claim_C1.2.1 _ _ (by decide) (by decide),
   claim_C1.2.2 _ _ _ (by decide) (by decide) (by decide)⟩

theorem read_varint_nil_not_ok {key : Nat} {r1 : List Nat} :
    read_varint [] = .ok (key, r1) → False := by
  intro h
  simp [read_varint, readVarintGo] at h

/-- C4: `decode_message` fails on a key with field number 0; fails when a
fixed64 / length-delimited / fixed32 field's declared length (8 / the length
prefix / 4) exceeds the remaining buffer; fails on every wire type other
than 0, 1, 2, 5 (in particular the reserved types 3 and 4); and successful
decodes concatenate, so fields come back in on-wire order with duplicates
preserved. -/
theorem claim_C4 :
    (∀ (data : List Nat) (key : Nat) (r1 : List Nat),
      read_varint data = .ok (key, r1) → key >>> 3 = 0 →
      decode_message data = .error "field number 0 is invalid") ∧
    (∀ (data : List Nat) (key : Nat) (r1 : List Nat),
      read_varint data = .ok (key, r1) → key >>> 3 ≠ 0 →
      (key &&& 7 = 3 ∨ key &&& 7 = 4 ∨ key &&& 7 = 6 ∨ key &&& 7 = 7) →
      decode_message data = .error "unsupported wire type") ∧
    (∀ (data : List Nat) (key : Nat) (r1 : List Nat),
      read_varint data = .ok (key, r1) → key >>> 3 ≠ 0 → key &&& 7 = 1 → r1.length < 8 →
      decode_message data = .error "truncated fixed64") ∧
    (∀ (data : List Nat) (key : Nat) (r1 : List Nat) (len : Nat) (r2 : List Nat),
      read_varint data = .ok (key, r1) → key >>> 3 ≠ 0 → key &&& 7 = 2 →
      read_varint r1 = .ok (len, r2) → r2.length < len →
      decode_message data = .error "truncated length-delimited field") ∧
    (∀ (data : List Nat) (key : Nat) (r1 : List Nat),
      read_varint data = .ok (key, r1) → key >>> 3 ≠ 0 → key &&& 7 = 5 → r1.length < 4 →
      decode_message data = .error "truncated fixed32") ∧
    (∀ (a b : List Nat) (fa fb : List ProtoField),
      decode_message a = .ok fa → decode_message b = .ok fb →
      decode_message (a ++ b) = .ok (fa ++ fb)) := by
  refine ⟨?_, ?_, ?_, ?_, ?_, fun a b fa fb ha hb => decode_message_append ha hb⟩
  · intro data key r1 hrv hk
    cases data with
    | nil => exact absurd hrv read_varint_nil_not_ok
    | cons x tl =>
      rw [decode_message]
      simp only [List.length_cons, decodeMsgGo, hrv, except_bind_ok]
      rw [if_pos (by simp [hk])]
  · intro data key r1 hrv hk hwt
    cases data with
    | nil => exact absurd hrv read_varint_nil_not_ok
    | cons x tl =>
      rw [decode_message]
      simp only [List.length_cons, decodeMsgGo, hrv, except_bind_ok]
      rw [if_neg (by simp [hk]), if_neg (by simp; omega), if_neg (by simp; omega),
        if_neg (by simp; omega), if_neg (by simp; omega)]
  · intro data key r1 hrv hk hwt hlen
    cases data with
    | nil => exact absurd hrv read_varint_nil_not_ok
    | cons x tl =>
      rw [decode_message]
      simp only [List.length_cons, decodeMsgGo, hrv, except_bind_ok]
      rw [if_neg (by simp [hk]), if_neg (by simp [hwt]), if_pos (by simp [hwt]),
        if_pos hlen]
  · intro data key r1 len r2 hrv hk hwt hrv2 hlen
    cases data with
    | nil => exact absurd hrv read_varint_nil_not_ok
    | cons x tl =>
      rw [decode_message]
      simp only [List.length_cons, decodeMsgGo, hrv, except_bind_ok]
      rw [if_neg (by simp [hk]), if_neg (by simp [hwt]), if_neg (by simp [hwt]),
        if_pos (by simp [hwt])]
      rw [hrv2, except_bind_ok]
      simp only
      rw [if_pos hlen]
  · intro data key r1 hrv hk hwt hlen
    cases data with
    | nil => exact absurd hrv read_varint_nil_not_ok
    | cons x tl =>
      rw [decode_message]
      simp only [List.length_cons, decodeMsgGo, hrv, except_bind_ok]
      rw [if_neg (by simp [hk]), if_neg (by simp [hwt]), if_neg (by simp [hwt]),
        if_neg (by simp [hwt]), if_pos (by simp [hwt]), if_pos hlen]

/-- C4 (witness). -/
theorem claim_C4_witness :
    decode_message [0x00] = .error "field number 0 is invalid" ∧
    decode_message [0x0b] = .error "unsupported wire type" ∧
    decode_message [0x09, 1, 2] = .error "truncated fixed64" ∧
    decode_message [0x0a, 10, 0] = .error "truncated length-delimited field" ∧
    decode_message [0x0d, 0] = .error "truncated fixed32" ∧
    decode_message ([0x08, 1] ++ [0x10, 2]) =
      .ok ([⟨1, 0, .vint 1⟩] ++ [⟨2, 0, .vint 2⟩]) :=
  ⟨claim_C4.1 _ 0 [] (by decide) (by decide),
   claim_C4.2.1 _ 11 [] (by decide) (by decide) (by decide),
   claim_C4.2.2.1 _ 9 [1, 2] (by decide) (by decide) (by decide) (by decide),
   claim_C4.2.2.2.1 _ 10 [10, 0] 10 [0] (by decide) (by decide) (by decide) (by decide)
     (by decide),
   claim_C4.2.2.2.2.1 _ 13 [0] (by decide) (by decide) (by decide) (by decide),
   claim_C4.2.2.2.2.2 _ _ _ _ (by decide) (by decide)⟩

theorem fixed32_roundtrip {bits : Nat} (hb : bits < 2 ^ 32) :
    fixed32_to_float (u32le bits) = .ok bits := by
  simp only [fixed32_to_float, u32le, u32ofLe, List.length_cons, List.length_nil]
  norm_num
  omega

theorem fixed64_roundtrip {bits : Nat} (hb : bits < 2 ^ 64) :
    fixed64_to_double (u64le bits) = .ok bits := by
  simp only [fixed64_to_double, u64le, u64ofLe, List.length_cons, List.length_nil]
  norm_num
  omega

theorem get_first_filter :
    ∀ (fields : List ProtoField) (n wt : Nat) (f : ProtoField),
      get_first fields n (some wt) = some f → f.number = n ∧ f.wire_type = wt := by
  intro fields
  induction fields with
  | nil => intro n wt f h; simp [get_first] at h
  | cons g rest ih =>
    intro n wt f h
    simp only [get_first] at h
    split at h
    · exact ih n wt f h
    · split at h
      · exact ih n wt f h
      · rename_i h1 h2
        rw [Option.some.injEq] at h
        subst h
        constructor
        · omega
        · omega

/-- C5: `fixed32_to_float` fails precisely on inputs whose length is not 4,
`fixed64_to_double` precisely on length ≠ 8; on correct-length inputs they
reproduce the IEEE-754 bit pattern exactly, and decoding the output of
`encode_fixed32_float` / `encode_fixed64_double` yields back the encoded
payload bytes (so e.g. 1.25 encoded as fixed64 decodes to 1.25 — see the
witness, which runs the pipeline on the bit patterns of 1.25). -/
theorem claim_C5 :
    (∀ bs : List Nat, fixed32_to_float bs = .error "fixed32 must be 4 bytes" ↔ bs.length ≠ 4) ∧
    (∀ bs : List Nat, fixed64_to_double bs = .error "fixed64 must be 8 bytes" ↔ bs.length ≠ 8) ∧
    (∀ bits : Nat, bits < 2 ^ 32 → fixed32_to_float (u32le bits) = .ok bits) ∧
    (∀ bits : Nat, bits < 2 ^ 64 → fixed64_to_double (u64le bits) = .ok bits) ∧
    (∀ (n bits : Nat), 1 ≤ n → n < 2 ^ 67 →
      decode_message (encode_fixed32_float n bits) = .ok [⟨n, 5, .vbytes (u32le bits)⟩]) ∧
    (∀ (n bits : Nat), 1 ≤ n → n < 2 ^ 67 →
      decode_message (encode_fixed64_double n bits) = .ok [⟨n, 1, .vbytes (u64le bits)⟩]) := by
  refine ⟨?_, ?_, ?_, ?_, ?_, ?_⟩
  · intro bs
    by_cases h : bs.length = 4 <;> simp [fixed32_to_float, h]
  · intro bs
    by_cases h : bs.length = 8 <;> simp [fixed64_to_double, h]
  · intro bits hb
    exact fixed32_roundtrip hb
  · intro bits hb
    exact fixed64_roundtrip hb
  · intro n bits hn1 hn2
    exact decode_field_fixed32 hn1 hn2 rfl
  · intro n bits hn1 hn2
    exact decode_field_fixed64 hn1 hn2 rfl

/-- C5 (witness): 1.25 as binary32 has pattern 0x3FA00000 and as binary64
pattern 0x3FF4000000000000. -/
theorem claim_C5_witness :
    (fixed32_to_float [0] = .error "fixed32 must be 4 bytes" ↔ ([0] : List Nat).length ≠ 4) ∧
    (fixed64_to_double [0] = .error "fixed64 must be 8 bytes" ↔ ([0] : List Nat).length ≠ 8) ∧
    fixed32_to_float (u32le 0x3FA00000) = .ok 0x3FA00000 ∧
    fixed64_to_double (u64le 0x3FF4000000000000) = .ok 0x3FF4000000000000 ∧
    decode_message (encode_fixed32_float 2 0x3FA00000) =
      .ok [⟨2, 5, .vbytes (u32le 0x3FA00000)⟩] ∧
    decode_message (encode_fixed64_double 3 0x3FF4000000000000) =
      .ok [⟨3, 1, .vbytes (u64le 0x3FF4000000000000)⟩] :=
  ⟨claim_C5.1 [0], claim_C5.2.1 [0],
   claim_C5.2.2.1 _ (by norm_num), claim_C5.2.2.2.1 _ (by norm_num),
   claim_C5.2.2.2.2.1 2 _ (by norm_num) (by norm_num),
   claim_C5.2.2.2.2.2 3 _ (by norm_num) (by norm_num)⟩

/-- C3: `should_refresh_from_subscribe_response` returns `true` when the
payload fails to decode (fail open); `false` when the envelope has no
field-1 event or the event bytes are empty; `true` when the inner event
bytes fail to decode (fail open); and in every other case it returns `true`
exactly when the inner event message carries a length-delimited field-1
(notifier-entity) or field-3 (system-entity) sub-event. -/
theorem claim_C3 :
    (∀ (payload : List Nat) (e : String), decode_message payload = .error e →
      should_refresh_from_subscribe_response payload = true) ∧
    (∀ (payload : List Nat) (top : List ProtoField), decode_message payload = .ok top →
      get_first top 1 (some 2) = none →
      should_refresh_from_subscribe_response payload = false) ∧
    (∀ (payload : List Nat) (top : List ProtoField) (event : ProtoField),
      decode_message payload = .ok top → get_first top 1 (some 2) = some event →
      event.value.bytes = [] →
      should_refresh_from_subscribe_response payload = false) ∧
    (∀ (payload : List Nat) (top : List ProtoField) (event : ProtoField) (e : String),
      decode_message payload = .ok top → get_first top 1 (some 2) = some event →
      event.value.bytes ≠ [] → decode_message event.value.bytes = .error e →
      should_refresh_from_subscribe_response payload = true) ∧
    (∀ (payload : List Nat) (top : List ProtoField) (event : ProtoField)
        (event_msg : List ProtoField),
      decode_message payload = .ok top → get_first top 1 (some 2) = some event →
      event.value.bytes ≠ [] → decode_message event.value.bytes = .ok event_msg →
      should_refresh_from_subscribe_response payload =
        (!(get_all event_msg 1 (some 2)).isEmpty || !(get_all event_msg 3 (some 2)).isEmpty)) := by
  refine ⟨?_, ?_, ?_, ?_, ?_⟩
  · intro payload e h
    simp [should_refresh_from_subscribe_response, h]
  · intro payload top h hg
    simp [should_refresh_from_subscribe_response, h, hg]
  · intro payload top event h hg hempty
    simp [should_refresh_from_subscribe_response, h, hg, hempty]
  · intro payload top event e h hg hne hinner
    simp [should_refresh_from_subscribe_response, h, hg, hinner,
      List.isEmpty_eq_true.not.mpr hne]
  · intro payload top event event_msg h hg hne hinner
    simp only [should_refresh_from_subscribe_response, h, hg, hinner,
      List.isEmpty_eq_true.not.mpr hne]
    rw [if_neg (by simp [hne])]
    by_cases h1 : (get_all event_msg 1 (some 2)).isEmpty
    · by_cases h3 : (get_all event_msg 3 (some 2)).isEmpty
      · simp [h1, h3]
      · simp [h1, h3]
    · simp [h1]

/-- C3 (witness). -/
theorem claim_C3_witness :
    should_refresh_from_subscribe_response [0x00] = true ∧
    should_refresh_from_subscribe_response [] = false ∧
    should_refresh_from_subscribe_response [0x0a, 0x00] = false ∧
    should_refresh_from_subscribe_response [0x0a, 0x01, 0x00] = true ∧
    should_refresh_from_subscribe_response [0x0a, 0x02, 0x1a, 0x00] =
      (!(get_all [⟨3, 2, .vbytes []⟩] 1 (some 2)).isEmpty ||
       !(get_all [⟨3, 2, .vbytes []⟩] 3 (some 2)).isEmpty) :=
  ⟨claim_C3.1 _ "field number 0 is invalid" (by decide),
   claim_C3.2.1 _ [] (by decide) (by decide),
   claim_C3.2.2.1 _ [⟨1, 2, .vbytes []⟩] ⟨1, 2, .vbytes []⟩ (by decide) (by decide) (by decide),
   claim_C3.2.2.2.1 _ [⟨1, 2, .vbytes [0]⟩] ⟨1, 2, .vbytes [0]⟩ "field number 0 is invalid"
     (by decide) (by decide) (by decide) (by decide),
   claim_C3.2.2.2.2 _ [⟨1, 2, .vbytes [0x1a, 0x00]⟩] ⟨1, 2, .vbytes [0x1a, 0x00]⟩
     [⟨3, 2, .vbytes []⟩] (by decide) (by decide) (by decide) (by decide)⟩

/-- C8: `encode_subscribe_request` sorts the topic set before encoding, so
for every request type and every variant (both supported field orderings and
the error case alike), two calls on equal topic sets — however the sets were
built up — produce identical bytes. -/
theorem claim_C8 :
    ∀ (req_type : Nat) (variant : String) (l1 l2 : List String),
      (∀ s, s ∈ l1 ↔ s ∈ l2) →
      encode_subscribe_request req_type l1.toFinset variant =
        encode_subscribe_request req_type l2.toFinset variant := by
  intro t v l1 l2 hmem
  have h : l1.toFinset = l2.toFinset := by
    ext s
    simp only [List.mem_toFinset]
    exact hmem s
  rw [h]

/-- C8 (witness): two different iteration orders (with a duplicate) of the
same two-topic set. -/
theorem claim_C8_witness :
    encode_subscribe_request 0 (["b", "a"] : List String).toFinset "topics1_type2" =
      encode_subscribe_request 0 (["a", "b", "a"] : List String).toFinset "topics1_type2" :=
  claim_C8 0 "topics1_type2" _ _ (by
    intro s
    simp only [List.mem_cons, List.not_mem_nil, or_false]
    tauto)

/-- C7: `token_expires_soon` returns `true` for every syntactically invalid
id token — fewer than two dot-separated segments, a middle segment that does
not decode as base64url JSON, or a decoded object with no `exp` claim — and
returns `false` whenever the `exp` claim lies strictly beyond `now` plus the
lookahead window. -/
theorem claim_C7 :
    (∀ (jwt : List Char) (now w : Int), (splitOnDot jwt).length < 2 →
      token_expires_soon jwt now w = true) ∧
    (∀ (jwt : List Char) (now w : Int),
      (jwtPayloadJson ((splitOnDot jwt).getD 1 [])).isNone = true →
      token_expires_soon jwt now w = true) ∧
    (∀ (jwt : List Char) (now w : Int) (kvs : List (List Nat × JValue)),
      jwtPayloadJson ((splitOnDot jwt).getD 1 []) = some (.jobj kvs) →
      jsonGet [101, 120, 112] kvs = none →
      token_expires_soon jwt now w = true) ∧
    (∀ (jwt : List Char) (now w e : Int), _jwt_exp_unix jwt = some e → now + w < e →
      token_expires_soon jwt now w = false) := by
  refine ⟨?_, ?_, ?_, ?_⟩
  · intro jwt now w h
    simp [token_expires_soon, _jwt_exp_unix, h]
  · intro jwt now w h
    rw [Option.isNone_iff_eq_none] at h
    by_cases hp : (splitOnDot jwt).length < 2
    · simp [token_expires_soon, _jwt_exp_unix, hp]
    · simp only [token_expires_soon, _jwt_exp_unix, if_neg hp, h]
  · intro jwt now w kvs h hget
    by_cases hp : (splitOnDot jwt).length < 2
    · simp [token_expires_soon, _jwt_exp_unix, hp]
    · simp only [token_expires_soon, _jwt_exp_unix, if_neg hp, h, hget]
  · intro jwt now w e h hlt
    simp only [token_expires_soon, h]
    rw [decide_eq_false_iff_not]
    omega

/-- C7 (witness): a token with no dot, one whose payload has 5 base64 data
characters (≡ 1 mod 4, rejected), one whose payload decodes to `{}`, and one
whose payload is `{"exp":9999999999}` checked at `now = 0`. -/
theorem claim_C7_witness :
    token_expires_soon ("abc".toList) 0 120 = true ∧
    token_expires_soon ("h.AAAAB.s".toList) 0 120 = true ∧
    token_expires_soon ("h.e30.s".toList) 0 120 = true ∧
    token_expires_soon ("h.eyJleHAiOjk5OTk5OTk5OTl9.s".toList) 0 120 = false :=
  ⟨claim_C7.1 _ 0 120 (by decide),
   claim_C7.2.1 _ 0 120 (by decide),
   claim_C7.2.2.1 _ 0 120 [] (by rfl) (by rfl),
   claim_C7.2.2.2 _ 0 120 9999999999 (by decide) (by decide)⟩

theorem except_bindM_ok {ε α β : Type} (a : α) (f : α → Except ε β) :
    (Except.ok a : Except ε α) >>= f = f a := rfl

theorem except_bindM_error {ε α β : Type} (e : ε) (f : α → Except ε β) :
    (Except.error e : Except ε α) >>= f = .error e := rfl

theorem except_pure {ε α : Type} (a : α) : (pure a : Except ε α) = .ok a := rfl

theorem encode_varint_small {v : Nat} (h : v < 128) : encode_varint v = [v] := by
  unfold encode_varint encVarintGo
  have hz : (v >>> 7 == 0) = true := by
    simp only [beq_iff_eq, Nat.shiftRight_eq_div_pow]
    norm_num
    omega
  simp only [hz, if_true, and_127_eq_mod]
  norm_num
  omega

/-- C9: in `parse_list_systems_response`, an entry carrying an id but no
name (field 2) gets its name defaulted to the id; a missing timezone
(field 3) defaults to the empty string; an entry with no id (field 1) is
skipped; and — end to end — a response holding a no-id entry followed by a
good entry yields exactly the good entry. -/
theorem claim_C9 :
    (∀ (raw : List Nat) (msg : List ProtoField) (sidf : ProtoField),
      decode_message raw = .ok msg → get_first msg 1 (some 2) = some sidf →
      get_first msg 2 (some 2) = none →
      (parseSystemEntry raw).map (Option.map (fun i => i.name)) = .ok (some sidf.value.bytes)) ∧
    (∀ (raw : List Nat) (msg : List ProtoField) (sidf : ProtoField),
      decode_message raw = .ok msg → get_first msg 1 (some 2) = some sidf →
      get_first msg 3 (some 2) = none →
      (parseSystemEntry raw).map (Option.map (fun i => i.timezone)) = .ok (some [])) ∧
    (∀ (raw : List Nat) (msg : List ProtoField),
      decode_message raw = .ok msg → get_first msg 1 (some 2) = none →
      parseSystemEntry raw = .ok none) ∧
    (∀ (nm gid : List Nat), nm.length < 128 → gid.length < 128 →
      parse_list_systems_response
        (encode_bytes_field 1 (encode_bytes_field 2 nm) ++
         encode_bytes_field 1 (encode_bytes_field 1 gid)) =
        .ok [⟨gid, gid, []⟩]) := by
  refine ⟨?_, ?_, ?_, ?_⟩
  · intro raw msg sidf hdec hsid hname
    simp [parseSystemEntry, hdec, hsid, hname, except_bindM_ok, except_pure, Except.map]
  · intro raw msg sidf hdec hsid htz
    simp [parseSystemEntry, hdec, hsid, htz, except_bindM_ok, except_pure, Except.map]
  · intro raw msg hdec hsid
    simp [parseSystemEntry, hdec, hsid, except_bindM_ok, except_pure]
  · intro nm gid hnm hgid
    have hinner1 : decode_message (encode_bytes_field 2 nm) = .ok [⟨2, 2, .vbytes nm⟩] :=
      decode_field_bytes (by norm_num) (by norm_num) (by omega)
    have hinner2 : decode_message (encode_bytes_field 1 gid) = .ok [⟨1, 2, .vbytes gid⟩] :=
      decode_field_bytes (by norm_num) (by norm_num) (by omega)
    have hlen1 : (encode_bytes_field 2 nm).length < 2 ^ 70 := by
      simp only [encode_bytes_field, encode_key, encode_length_delimited,
        encode_varint_small (show (2 <<< 3) ||| 2 < 128 by decide),
        encode_varint_small hnm, List.length_append, List.length_cons, List.length_nil]
      omega
    have hlen2 : (encode_bytes_field 1 gid).length < 2 ^ 70 := by
      simp only [encode_bytes_field, encode_key, encode_length_delimited,
        encode_varint_small (show (1 <<< 3) ||| 2 < 128 by decide),
        encode_varint_small hgid, List.length_append, List.length_cons, List.length_nil]
      omega
    have houter1 : decode_message (encode_bytes_field 1 (encode_bytes_field 2 nm)) =
        .ok [⟨1, 2, .vbytes (encode_bytes_field 2 nm)⟩] :=
      decode_field_bytes (by norm_num) (by norm_num) hlen1
    have houter2 : decode_message (encode_bytes_field 1 (encode_bytes_field 1 gid)) =
        .ok [⟨1, 2, .vbytes (encode_bytes_field 1 gid)⟩] :=
      decode_field_bytes (by norm_num) (by norm_num) hlen2
    have htop := decode_message_append houter1 houter2
    simp only [List.singleton_append] at htop
    simp only [parse_list_systems_response, htop, except_bindM_ok]
    simp only [get_all]
    norm_num
    simp only [List.foldlM, parseSystemEntry, PValue.bytes, hinner1, hinner2,
      except_bindM_ok, except_pure, get_first]
    norm_num
    rfl

/-- C9 (witness). -/
theorem claim_C9_witness :
    (parseSystemEntry (encode_bytes_field 1 [105])).map (Option.map (fun i => i.name)) =
      .ok (some [105]) ∧
    (parseSystemEntry (encode_bytes_field 1 [105])).map (Option.map (fun i => i.timezone)) =
      .ok (some []) ∧
    parseSystemEntry (encode_bytes_field 2 [110]) = .ok none ∧
    parse_list_systems_response
      (encode_bytes_field 1 (encode_bytes_field 2 [110]) ++
       encode_bytes_field 1 (encode_bytes_field 1 [105])) =
      .ok [⟨[105], [105], []⟩] :=
  ⟨claim_C9.1 _ [⟨1, 2, .vbytes [105]⟩] ⟨1, 2, .vbytes [105]⟩ (by decide) (by decide) (by decide),
   claim_C9.2.1 _ [⟨1, 2, .vbytes [105]⟩] ⟨1, 2, .vbytes [105]⟩ (by decide) (by decide)
     (by decide),
   claim_C9.2.2.1 _ [⟨2, 2, .vbytes [110]⟩] (by decide) (by decide),
   claim_C9.2.2.2 [110] [105] (by decide) (by decide)⟩

theorem parse_timestamp_nanos_default :
    ∀ (raw : List Nat) (fields : List ProtoField),
      decode_message raw = .ok fields → get_first fields 2 (some 0) = none →
      ∀ ts, _parse_timestamp raw = some ts → ts.nanos = 0 := by
  intro raw fields hdec hns ts hts
  simp only [_parse_timestamp, hdec, hns] at hts
  cases hsec : get_first fields 1 (some 0) with
  | none => rw [hsec] at hts; simp at hts
  | some sec =>
    rw [hsec] at hts
    simp only [Option.map_none, Option.getD_none, Option.some.injEq] at hts
    rw [← hts]
    rfl

theorem option_some_orElse {α : Type} (a : α) (f : Unit → Option α) :
    (Option.some a).orElse f = some a := rfl

theorem option_none_orElse {α : Type} (f : Unit → Option α) :
    (Option.none : Option α).orElse f = f () := rfl

theorem parseEnergyBucket_nan64_zero :
    ∀ (raw : List Nat) (fields : List ProtoField) (ef : ProtoField)
        (bkt : QuiltEnergyMetricBucket),
      decode_message raw = .ok fields → get_first fields 3 (some 1) = some ef →
      isNan64 (u64ofLe ef.value.bytes) = true →
      parseEnergyBucket raw = .ok (some bkt) → bkt.energy_usage_kwh = pyFloatZero := by
  intro raw fields ef bkt hdec hef hnan hparse
  have hwt : ef.wire_type = 1 := (get_first_filter fields 3 1 ef hef).2
  unfold parseEnergyBucket at hparse
  rw [hdec] at hparse
  simp only [except_bindM_ok, hef, option_some_orElse] at hparse
  cases hts : (get_first fields 1 (some 2)).bind (fun t => _parse_timestamp t.value.bytes) with
  | none => rw [hts] at hparse; simp [except_pure] at hparse
  | some ts =>
    rw [hts] at hparse
    simp only [hwt, beq_self_eq_true, if_true, if_pos] at hparse
    by_cases hlen : ef.value.bytes.length = 8
    · rw [show fixed64_to_double ef.value.bytes = .ok (u64ofLe ef.value.bytes) by
        simp [fixed64_to_double, hlen]] at hparse
      simp only [except_map_ok, except_bindM_ok, PyFloat.isNan, hnan, if_true, if_pos,
        except_pure, Except.ok.injEq, Option.some.injEq] at hparse
      rw [← hparse]
    · rw [show fixed64_to_double ef.value.bytes = .error "fixed64 must be 8 bytes" by
        simp [fixed64_to_double, hlen]] at hparse
      simp [except_map_error, except_bindM_error] at hparse

theorem parseEnergyBucket_nan32_zero :
    ∀ (raw : List Nat) (fields : List ProtoField) (ef : ProtoField)
        (bkt : QuiltEnergyMetricBucket),
      decode_message raw = .ok fields → get_first fields 3 (some 1) = none →
      get_first fields 3 (some 5) = some ef →
      isNan32 (u32ofLe ef.value.bytes) = true →
      parseEnergyBucket raw = .ok (some bkt) → bkt.energy_usage_kwh = pyFloatZero := by
  intro raw fields ef bkt hdec hef1 hef hnan hparse
  have hwt : ef.wire_type = 5 := (get_first_filter fields 3 5 ef hef).2
  unfold parseEnergyBucket at hparse
  rw [hdec] at hparse
  simp only [except_bindM_ok, hef1, hef, option_none_orElse] at hparse
  cases hts : (get_first fields 1 (some 2)).bind (fun t => _parse_timestamp t.value.bytes) with
  | none => rw [hts] at hparse; simp [except_pure] at hparse
  | some ts =>
    rw [hts] at hparse
    simp only [hwt, if_neg, show ((5:Nat) == 1) = false from rfl, Bool.false_eq_true,
      if_false] at hparse
    by_cases hlen : ef.value.bytes.length = 4
    · rw [show fixed32_to_float ef.value.bytes = .ok (u32ofLe ef.value.bytes) by
        simp [fixed32_to_float, hlen]] at hparse
      simp only [except_map_ok, except_bindM_ok, PyFloat.isNan, hnan, if_true, if_pos,
        except_pure, Except.ok.injEq, Option.some.injEq] at hparse
      rw [← hparse]
    · rw [show fixed32_to_float ef.value.bytes = .error "fixed32 must be 4 bytes" by
        simp [fixed32_to_float, hlen]] at hparse
      simp [except_map_error, except_bindM_error] at hparse

theorem parseEnergyBucket_nan_input {bits : Nat} (hb : bits < 2 ^ 64)
    (hnan : isNan64 bits = true) :
    parseEnergyBucket (encode_bytes_field 1 (encode_varint_field 1 5) ++
      (encode_key 3 1 ++ u64le bits)) = .ok (some ⟨⟨5, 0⟩, none, pyFloatZero⟩) := by
  have hts : decode_message (encode_bytes_field 1 (encode_varint_field 1 5)) =
      .ok [⟨1, 2, .vbytes (encode_varint_field 1 5)⟩] := by decide
  have hen : decode_message (encode_key 3 1 ++ u64le bits) =
      .ok [⟨3, 1, .vbytes (u64le bits)⟩] :=
    decode_field_fixed64 (by norm_num) (by norm_num) rfl
  have hbucket := decode_message_append hts hen
  simp only [List.singleton_append] at hbucket
  unfold parseEnergyBucket
  rw [hbucket, except_bindM_ok]
  simp only [get_first]
  norm_num
  simp only [PValue.bytes, Option.some_bind,
    show _parse_timestamp (encode_varint_field 1 5) = some ⟨5, 0⟩ from by decide,
    option_some_orElse]
  rw [show fixed64_to_double (u64le bits) = .ok bits from fixed64_roundtrip hb]
  simp [except_map_ok, except_bindM_ok, PyFloat.isNan, hnan, except_pure]

theorem energy_metrics_nan_end {bits : Nat} (hb : bits < 2 ^ 64)
    (hnan : isNan64 bits = true) :
    parse_get_energy_metrics_response
      (encode_bytes_field 1 (encode_bytes_field 1 [115] ++
        encode_bytes_field 3 (encode_bytes_field 1 (encode_varint_field 1 5) ++
          (encode_key 3 1 ++ u64le bits)))) =
      .ok [⟨[115], none, [⟨⟨5, 0⟩, none, pyFloatZero⟩]⟩] := by
  have hblen : (encode_bytes_field 1 (encode_varint_field 1 5) ++
      (encode_key 3 1 ++ u64le bits)).length = 13 := by
    simp only [List.length_append,
      show (encode_bytes_field 1 (encode_varint_field 1 5)).length = 4 from by decide,
      show (encode_key 3 1).length = 1 from by decide,
      show (u64le bits).length = 8 from rfl]
  have hsm1 : decode_message (encode_bytes_field 1 [115]) = .ok [⟨1, 2, .vbytes [115]⟩] := by
    decide
  have hsm3 : decode_message (encode_bytes_field 3 (encode_bytes_field 1
      (encode_varint_field 1 5) ++ (encode_key 3 1 ++ u64le bits))) =
      .ok [⟨3, 2, .vbytes (encode_bytes_field 1 (encode_varint_field 1 5) ++
        (encode_key 3 1 ++ u64le bits))⟩] :=
    decode_field_bytes (by norm_num) (by norm_num) (by rw [hblen]; norm_num)
  have hsm := decode_message_append hsm1 hsm3
  simp only [List.singleton_append] at hsm
  have hsmlen : (encode_bytes_field 1 [115] ++
      encode_bytes_field 3 (encode_bytes_field 1 (encode_varint_field 1 5) ++
        (encode_key 3 1 ++ u64le bits))).length = 18 := by
    rw [List.length_append, show (encode_bytes_field 1 [115]).length = 3 from by decide,
      encode_bytes_field, encode_length_delimited, List.length_append, List.length_append,
      hblen, show (encode_key 3 2).length = 1 from by decide,
      show (encode_varint 13).length = 1 from by decide]
  have htop : decode_message (encode_bytes_field 1 (encode_bytes_field 1 [115] ++
      encode_bytes_field 3 (encode_bytes_field 1 (encode_varint_field 1 5) ++
        (encode_key 3 1 ++ u64le bits)))) =
      .ok [⟨1, 2, .vbytes (encode_bytes_field 1 [115] ++
        encode_bytes_field 3 (encode_bytes_field 1 (encode_varint_field 1 5) ++
          (encode_key 3 1 ++ u64le bits)))⟩] :=
    decode_field_bytes (by norm_num) (by norm_num) (by rw [hsmlen]; norm_num)
  unfold parse_get_energy_metrics_response
  rw [htop, except_bindM_ok]
  simp only [get_all]
  norm_num
  simp only [List.foldlM, PValue.bytes, hsm, except_bindM_ok]
  simp only [get_first, get_all]
  norm_num
  simp only [PValue.bytes, parseEnergyBucket_nan_input hb hnan, except_bindM_ok, except_pure]
  rfl

/-- C6: in `parse_get_energy_metrics_response`, a bucket whose timestamp
sub-message carries only the seconds field decodes with `nanos = 0`; a
bucket whose encoded energy value is NaN (in either the fixed64 or the
fixed32 form) decodes with `energy_usage_kwh` exactly `0.0`; and end to end,
a response holding one space with one NaN-energy, seconds-only bucket
parses to energy `0.0` and `nanos = 0`. -/
theorem claim_C6 :
    (∀ (raw : List Nat) (fields : List ProtoField),
      decode_message raw = .ok fields → get_first fields 2 (some 0) = none →
      ∀ ts, _parse_timestamp raw = some ts → ts.nanos = 0) ∧
    (∀ (raw : List Nat) (fields : List ProtoField) (ef : ProtoField)
        (bkt : QuiltEnergyMetricBucket),
      decode_message raw = .ok fields → get_first fields 3 (some 1) = some ef →
      isNan64 (u64ofLe ef.value.bytes) = true →
      parseEnergyBucket raw = .ok (some bkt) → bkt.energy_usage_kwh = pyFloatZero) ∧
    (∀ (raw : List Nat) (fields : List ProtoField) (ef : ProtoField)
        (bkt : QuiltEnergyMetricBucket),
      decode_message raw = .ok fields → get_first fields 3 (some 1) = none →
      get_first fields 3 (some 5) = some ef →
      isNan32 (u32ofLe ef.value.bytes) = true →
      parseEnergyBucket raw = .ok (some bkt) → bkt.energy_usage_kwh = pyFloatZero) ∧
    (∀ bits : Nat, bits < 2 ^ 64 → isNan64 bits = true →
      parse_get_energy_metrics_response
        (encode_bytes_field 1 (encode_bytes_field 1 [115] ++
          encode_bytes_field 3 (encode_bytes_field 1 (encode_varint_field 1 5) ++
            (encode_key 3 1 ++ u64le bits)))) =
        .ok [⟨[115], none, [⟨⟨5, 0⟩, none, pyFloatZero⟩]⟩]) :=
  ⟨parse_timestamp_nanos_default, parseEnergyBucket_nan64_zero, parseEnergyBucket_nan32_zero,
   fun _ hb hnan => energy_metrics_nan_end hb hnan⟩

/-- C6 (witness): a seconds-only timestamp, and the canonical quiet-NaN
patterns 0x7FF8000000000000 (binary64) and 0x7FC00000 (binary32). -/
theorem claim_C6_witness :
    (⟨5, 0⟩ : QuiltTimestamp).nanos = 0 ∧
    (⟨⟨5, 0⟩, none, pyFloatZero⟩ : QuiltEnergyMetricBucket).energy_usage_kwh = pyFloatZero ∧
    (⟨⟨5, 0⟩, some 1, pyFloatZero⟩ : QuiltEnergyMetricBucket).energy_usage_kwh = pyFloatZero ∧
    parse_get_energy_metrics_response
      (encode_bytes_field 1 (encode_bytes_field 1 [115] ++
        encode_bytes_field 3 (encode_bytes_field 1 (encode_varint_field 1 5) ++
          (encode_key 3 1 ++ u64le 0x7FF8000000000000)))) =
      .ok [⟨[115], none, [⟨⟨5, 0⟩, none, pyFloatZero⟩]⟩] :=
  ⟨claim_C6.1 (encode_varint_field 1 5) [⟨1, 0, .vint 5⟩] (by decide) (by decide)
     ⟨5, 0⟩ (by decide),
   claim_C6.2.1 (encode_bytes_field 1 (encode_varint_field 1 5) ++
       (encode_key 3 1 ++ u64le 0x7FF8000000000000))
     [⟨1, 2, .vbytes (encode_varint_field 1 5)⟩, ⟨3, 1, .vbytes (u64le 0x7FF8000000000000)⟩]
     ⟨3, 1, .vbytes (u64le 0x7FF8000000000000)⟩ ⟨⟨5, 0⟩, none, pyFloatZero⟩
     (by decide) (by decide) (by decide) (by decide),
   claim_C6.2.2.1 (encode_bytes_field 1 (encode_varint_field 1 5) ++
       (encode_varint_field 2 1 ++ (encode_key 3 5 ++ u32le 0x7FC00000)))
     [⟨1, 2, .vbytes (encode_varint_field 1 5)⟩, ⟨2, 0, .vint 1⟩,
      ⟨3, 5, .vbytes (u32le 0x7FC00000)⟩]
     ⟨3, 5, .vbytes (u32le 0x7FC00000)⟩ ⟨⟨5, 0⟩, some 1, pyFloatZero⟩
     (by decide) (by decide) (by decide) (by decide) (by decide),
   claim_C6.2.2.2 0x7FF8000000000000 (by norm_num) (by decide)⟩

theorem dget_dinsert {α : Type} (key k : List Nat) (v : α) :
    ∀ (d : List (List Nat × α)),
      dget k (dinsert key v d) = if key = k then some v else dget k d := by
  intro d
  induction d with
  | nil => simp [dinsert, dget]
  | cons e rest ih =>
    obtain ⟨k1, v1⟩ := e
    by_cases h1 : k1 = key
    · subst h1
      simp only [dinsert, if_pos rfl, dget]
      by_cases h2 : k1 = k
      · simp [h2]
      · simp [h2]
    · simp only [dinsert, if_neg h1, dget, ih]
      by_cases h2 : k1 = k
      · have hkk : ¬ key = k := by
          rw [← h2]
          exact fun hc => h1 hc.symm
        simp [h2, hkk]
      · simp [h2]

theorem except_bind_ok_inv {ε α β : Type} {x : Except ε α} {f : α → Except ε β} {b : β}
    (h : x >>= f = .ok b) : ∃ a, x = .ok a ∧ f a = .ok b := by
  cases x with
  | error e => rw [except_bindM_error] at h; exact absurd h (by simp)
  | ok a => exact ⟨a, rfl, h⟩

theorem foldlM_except_inv {α β : Type} (P : α → Prop) (step : α → β → Except String α)
    (hstep : ∀ a b a', P a → step a b = .ok a' → P a') :
    ∀ (l : List β) (a0 a1 : α), P a0 → l.foldlM step a0 = .ok a1 → P a1 := by
  intro l
  induction l with
  | nil =>
    intro a0 a1 h0 hfold
    simp only [List.foldlM, except_pure] at hfold
    rw [Except.ok.injEq] at hfold
    rwa [← hfold]
  | cons b rest ih =>
    intro a0 a1 h0 hfold
    simp only [List.foldlM] at hfold
    obtain ⟨a', hstep0, hrest⟩ := except_bind_ok_inv hfold
    exact ih a' a1 (hstep a0 b a' h0 hstep0) hrest

theorem foldl_inv {α β : Type} (P : α → Prop) (step : α → β → α)
    (hstep : ∀ a b, P a → P (step a b)) :
    ∀ (l : List β) (a0 : α), P a0 → P (l.foldl step a0) := by
  intro l
  induction l with
  | nil => intro a0 h0; simpa [List.foldl] using h0
  | cons b rest ih => intro a0 h0; exact ih (step a0 b) (hstep a0 b h0)

theorem encode_bytes_field_small_len {n : Nat} {p : List Nat} (hn : n < 16)
    (hp : p.length < 128) : (encode_bytes_field n p).length = 2 + p.length := by
  have hkey : (n <<< 3) ||| 2 < 128 := by
    rw [lor_eq_add_of_lt n (show (2:Nat) < 2 ^ 3 by norm_num)]
    norm_num
    omega
  rw [encode_bytes_field, encode_key, encode_length_delimited, encode_varint_small hkey,
    encode_varint_small hp]
  simp only [List.singleton_append, List.length_cons, List.length_append]
  omega

theorem hdsTopicStep_onlyid {name : String} {objBytes hdrBytes oid : List Nat} {acc : HdsAcc}
    {K : Nat}
    (hobj : decode_message objBytes = .ok [⟨1, 2, .vbytes hdrBytes⟩])
    (hhdr : decode_message hdrBytes = .ok [⟨1, 2, .vbytes oid⟩]) :
    hdsTopicStep name acc ⟨K, 2, .vbytes objBytes⟩ =
      { acc with topic_ids := topicAdd name oid acc.topic_ids } := by
  unfold hdsTopicStep
  rw [show PValue.bytes (.vbytes objBytes) = objBytes from rfl, hobj]
  simp only [get_first]
  norm_num
  rw [show PValue.bytes (.vbytes hdrBytes) = hdrBytes from rfl, hhdr]
  simp only [get_first]
  norm_num
  by_cases hbox : acc.system_id_box.isNone <;> simp [hbox, PValue.bytes]

theorem hdsTopicStep_nosys_full {name : String} {objBytes hdrBytes oid sys : List Nat}
    {acc : HdsAcc} {K : Nat}
    (hobj : decode_message objBytes = .ok [⟨1, 2, .vbytes hdrBytes⟩])
    (hhdr : decode_message hdrBytes = .ok [⟨1, 2, .vbytes oid⟩, ⟨4, 2, .vbytes sys⟩]) :
    hdsTopicStep name acc ⟨K, 2, .vbytes objBytes⟩ =
      (if acc.system_id_box.isNone then
        { acc with topic_ids := topicAdd name oid acc.topic_ids, system_id_box := some sys }
      else { acc with topic_ids := topicAdd name oid acc.topic_ids }) := by
  unfold hdsTopicStep
  rw [show PValue.bytes (.vbytes objBytes) = objBytes from rfl, hobj]
  simp only [get_first]
  norm_num
  rw [show PValue.bytes (.vbytes hdrBytes) = hdrBytes from rfl, hhdr]
  simp only [get_first]
  norm_num
  by_cases hbox : acc.system_id_box.isNone <;> simp [hbox, PValue.bytes]

theorem hdsTopicStep_noid {name : String} {objBytes hdrBytes sys : List Nat} {acc : HdsAcc}
    {K : Nat}
    (hobj : decode_message objBytes = .ok [⟨1, 2, .vbytes hdrBytes⟩])
    (hhdr : decode_message hdrBytes = .ok [⟨4, 2, .vbytes sys⟩]) :
    hdsTopicStep name acc ⟨K, 2, .vbytes objBytes⟩ = acc := by
  unfold hdsTopicStep
  rw [show PValue.bytes (.vbytes objBytes) = objBytes from rfl, hobj]
  simp only [get_first]
  norm_num
  rw [show PValue.bytes (.vbytes hdrBytes) = hdrBytes from rfl, hhdr]
  simp only [get_first]
  norm_num

theorem parse_header_sid_only {hdrBytes oid : List Nat}
    (hhdr : decode_message hdrBytes = .ok [⟨1, 2, .vbytes oid⟩]) :
    _parse_header hdrBytes = .ok none := by
  unfold _parse_header
  rw [hhdr, except_bindM_ok]
  simp only [get_first]
  norm_num
  rfl

theorem parse_header_sys_only {hdrBytes sys : List Nat}
    (hhdr : decode_message hdrBytes = .ok [⟨4, 2, .vbytes sys⟩]) :
    _parse_header hdrBytes = .ok none := by
  unfold _parse_header
  rw [hhdr, except_bindM_ok]
  simp only [get_first]
  norm_num
  rfl

theorem parse_header_full {hdrBytes oid sys : List Nat}
    (hhdr : decode_message hdrBytes = .ok [⟨1, 2, .vbytes oid⟩, ⟨4, 2, .vbytes sys⟩]) :
    _parse_header hdrBytes = .ok (some ⟨oid, none, none, sys⟩) := by
  unfold _parse_header
  rw [hhdr, except_bindM_ok]
  simp only [get_first]
  norm_num
  rfl

theorem parse_iu_header_sid_only {hdrBytes oid : List Nat}
    (hhdr : decode_message hdrBytes = .ok [⟨1, 2, .vbytes oid⟩]) :
    _parse_indoor_unit_header hdrBytes = .ok none := by
  unfold _parse_indoor_unit_header
  rw [hhdr, except_bindM_ok]
  simp only [get_first]
  norm_num
  rfl

theorem parse_cs_header_sid_only {hdrBytes oid : List Nat}
    (hhdr : decode_message hdrBytes = .ok [⟨1, 2, .vbytes oid⟩]) :
    _parse_comfort_setting_header hdrBytes = .ok none := by
  unfold _parse_comfort_setting_header
  rw [hhdr, except_bindM_ok]
  simp only [get_first]
  norm_num
  rfl

theorem hdsSpaceStep_drop {objBytes hdrBytes : List Nat} {acc : HdsAcc}
    (hobj : decode_message objBytes = .ok [⟨1, 2, .vbytes hdrBytes⟩])
    (hph : _parse_header hdrBytes = .ok none) :
    hdsSpaceStep acc ⟨3, 2, .vbytes objBytes⟩ = .ok acc := by
  unfold hdsSpaceStep
  rw [show PValue.bytes (.vbytes objBytes) = objBytes from rfl, hobj, except_bindM_ok]
  simp only [get_first]
  norm_num
  simp only [optParseOr, PValue.bytes]
  rw [hph, except_bindM_ok]
  rfl

theorem hdsSpaceStep_insert {objBytes hdrBytes : List Nat} {hdr : QuiltSpaceHeader}
    {acc : HdsAcc}
    (hobj : decode_message objBytes = .ok [⟨1, 2, .vbytes hdrBytes⟩])
    (hph : _parse_header hdrBytes = .ok (some hdr)) :
    hdsSpaceStep acc ⟨3, 2, .vbytes objBytes⟩ = .ok
      { acc with
        system_id_box := pyOrBytes acc.system_id_box hdr.system_id
        spaces := dinsert hdr.space_id
          ⟨hdr, none, ⟨none, none⟩, ⟨none, none, none, none, none, none, none, none⟩,
           ⟨none, none, none, none, none⟩⟩ acc.spaces
        topic_ids := topicAdd "space" hdr.space_id acc.topic_ids } := by
  unfold hdsSpaceStep
  rw [show PValue.bytes (.vbytes objBytes) = objBytes from rfl, hobj, except_bindM_ok]
  simp only [get_first]
  norm_num
  simp only [optParseOr, PValue.bytes]
  rw [hph, except_bindM_ok]
  rfl

theorem hdsIndoorUnitStep_drop {objBytes hdrBytes : List Nat} {acc : HdsAcc}
    (hobj : decode_message objBytes = .ok [⟨1, 2, .vbytes hdrBytes⟩])
    (hph : _parse_indoor_unit_header hdrBytes = .ok none) :
    hdsIndoorUnitStep acc ⟨9, 2, .vbytes objBytes⟩ = .ok acc := by
  unfold hdsIndoorUnitStep
  rw [show PValue.bytes (.vbytes objBytes) = objBytes from rfl, hobj]
  simp only [get_first]
  norm_num
  simp only [optParseOr, PValue.bytes]
  rw [hph, except_bindM_ok]
  rfl

theorem hdsComfortStep_drop {objBytes hdrBytes : List Nat} {acc : HdsAcc}
    (hobj : decode_message objBytes = .ok [⟨1, 2, .vbytes hdrBytes⟩])
    (hph : _parse_comfort_setting_header hdrBytes = .ok none) :
    hdsComfortStep acc ⟨13, 2, .vbytes objBytes⟩ = .ok acc := by
  unfold hdsComfortStep
  rw [show PValue.bytes (.vbytes objBytes) = objBytes from rfl, hobj, except_bindM_ok]
  simp only [get_first]
  norm_num
  simp only [optParseOr, PValue.bytes]
  rw [hph, except_bindM_ok]
  rfl

theorem encVarintGo_length_le : ∀ (fuel v : Nat), (encVarintGo fuel v).length ≤ fuel := by
  intro fuel
  induction fuel with
  | zero => intro v; simp [encVarintGo]
  | succ f ih =>
    intro v
    simp only [encVarintGo]
    by_cases h : (v >>> 7 == 0) = true
    · simp [h]
    · simp only [h, if_false, Bool.false_eq_true, List.length_cons]
      have := ih (v >>> 7)
      omega

theorem encode_varint_length_le (v : Nat) : (encode_varint v).length ≤ v + 1 :=
  encVarintGo_length_le (v + 1) v

theorem encode_bytes_field_len_le {n : Nat} {p : List Nat} (hn : n < 16) :
    (encode_bytes_field n p).length ≤ 2 * p.length + 2 := by
  have hkey : (n <<< 3) ||| 2 < 128 := by
    rw [lor_eq_add_of_lt n (show (2:Nat) < 2 ^ 3 by norm_num)]
    norm_num
    omega
  rw [encode_bytes_field, encode_key, encode_length_delimited, encode_varint_small hkey]
  have := encode_varint_length_le p.length
  simp only [List.singleton_append, List.length_cons, List.length_append]
  omega

theorem hds_single_space_only_id {oid : List Nat} (hlen : oid.length < 128) :
    parse_get_home_datastore_system_response
      (encode_bytes_field 3 (encode_bytes_field 1 (encode_bytes_field 1 oid))) =
      .ok ⟨none, [], [], [], [], [], [("space", [oid])]⟩ := by
  have hhdr : decode_message (encode_bytes_field 1 oid) = .ok [⟨1, 2, .vbytes oid⟩] :=
    decode_field_bytes (by norm_num) (by norm_num) (by norm_num; omega)
  have hHlen : (encode_bytes_field 1 oid).length = 2 + oid.length :=
    encode_bytes_field_small_len (by norm_num) hlen
  have hobj : decode_message (encode_bytes_field 1 (encode_bytes_field 1 oid)) =
      .ok [⟨1, 2, .vbytes (encode_bytes_field 1 oid)⟩] :=
    decode_field_bytes (by norm_num) (by norm_num) (by rw [hHlen]; norm_num; omega)
  have hOlen : (encode_bytes_field 1 (encode_bytes_field 1 oid)).length ≤
      2 * (2 + oid.length) + 2 := by
    have := encode_bytes_field_len_le (n := 1) (p := encode_bytes_field 1 oid) (by norm_num)
    rwa [hHlen] at this
  have htop : decode_message (encode_bytes_field 3 (encode_bytes_field 1
      (encode_bytes_field 1 oid))) =
      .ok [⟨3, 2, .vbytes (encode_bytes_field 1 (encode_bytes_field 1 oid))⟩] :=
    decode_field_bytes (by norm_num) (by norm_num) (by norm_num; omega)
  unfold parse_get_home_datastore_system_response
  rw [htop, except_bindM_ok]
  simp only [field_to_topic, List.foldl, get_all]
  norm_num
  rw [hdsTopicStep_onlyid hobj hhdr]
  simp only [List.foldlM, except_pure, except_bindM_ok]
  rw [hdsSpaceStep_drop hobj (parse_header_sid_only hhdr)]
  rfl

theorem hds_single_iu_only_id {oid : List Nat} (hlen : oid.length < 128) :
    parse_get_home_datastore_system_response
      (encode_bytes_field 9 (encode_bytes_field 1 (encode_bytes_field 1 oid))) =
      .ok ⟨none, [], [], [], [], [], [("indoor_unit", [oid])]⟩ := by
  have hhdr : decode_message (encode_bytes_field 1 oid) = .ok [⟨1, 2, .vbytes oid⟩] :=
    decode_field_bytes (by norm_num) (by norm_num) (by norm_num; omega)
  have hHlen : (encode_bytes_field 1 oid).length = 2 + oid.length :=
    encode_bytes_field_small_len (by norm_num) hlen
  have hobj : decode_message (encode_bytes_field 1 (encode_bytes_field 1 oid)) =
      .ok [⟨1, 2, .vbytes (encode_bytes_field 1 oid)⟩] :=
    decode_field_bytes (by norm_num) (by norm_num) (by rw [hHlen]; norm_num; omega)
  have hOlen : (encode_bytes_field 1 (encode_bytes_field 1 oid)).length ≤
      2 * (2 + oid.length) + 2 := by
    have := encode_bytes_field_len_le (n := 1) (p := encode_bytes_field 1 oid) (by norm_num)
    rwa [hHlen] at this
  have htop : decode_message (encode_bytes_field 9 (encode_bytes_field 1
      (encode_bytes_field 1 oid))) =
      .ok [⟨9, 2, .vbytes (encode_bytes_field 1 (encode_bytes_field 1 oid))⟩] :=
    decode_field_bytes (by norm_num) (by norm_num) (by norm_num; omega)
  unfold parse_get_home_datastore_system_response
  rw [htop, except_bindM_ok]
  simp only [field_to_topic, List.foldl, get_all]
  norm_num
  rw [hdsTopicStep_onlyid hobj hhdr]
  simp only [List.foldlM, except_pure, except_bindM_ok]
  rw [hdsIndoorUnitStep_drop hobj (parse_iu_header_sid_only hhdr)]
  rfl

theorem hds_single_cs_only_id {oid : List Nat} (hlen : oid.length < 128) :
    parse_get_home_datastore_system_response
      (encode_bytes_field 13 (encode_bytes_field 1 (encode_bytes_field 1 oid))) =
      .ok ⟨none, [], [], [], [], [], [("comfort_setting", [oid])]⟩ := by
  have hhdr : decode_message (encode_bytes_field 1 oid) = .ok [⟨1, 2, .vbytes oid⟩] :=
    decode_field_bytes (by norm_num) (by norm_num) (by norm_num; omega)
  have hHlen : (encode_bytes_field 1 oid).length = 2 + oid.length :=
    encode_bytes_field_small_len (by norm_num) hlen
  have hobj : decode_message (encode_bytes_field 1 (encode_bytes_field 1 oid)) =
      .ok [⟨1, 2, .vbytes (encode_bytes_field 1 oid)⟩] :=
    decode_field_bytes (by norm_num) (by norm_num) (by rw [hHlen]; norm_num; omega)
  have hOlen : (encode_bytes_field 1 (encode_bytes_field 1 oid)).length ≤
      2 * (2 + oid.length) + 2 := by
    have := encode_bytes_field_len_le (n := 1) (p := encode_bytes_field 1 oid) (by norm_num)
    rwa [hHlen] at this
  have htop : decode_message (encode_bytes_field 13 (encode_bytes_field 1
      (encode_bytes_field 1 oid))) =
      .ok [⟨13, 2, .vbytes (encode_bytes_field 1 (encode_bytes_field 1 oid))⟩] :=
    decode_field_bytes (by norm_num) (by norm_num) (by norm_num; omega)
  unfold parse_get_home_datastore_system_response
  rw [htop, except_bindM_ok]
  simp only [field_to_topic, List.foldl, get_all]
  norm_num
  rw [hdsTopicStep_onlyid hobj hhdr]
  simp only [List.foldlM, except_pure, except_bindM_ok]
  rw [hdsComfortStep_drop hobj (parse_cs_header_sid_only hhdr)]
  rfl

theorem parse_header_nosys {hdrBytes : List Nat} {msg : List ProtoField}
    (hdec : decode_message hdrBytes = .ok msg)
    (hsys : get_first msg 4 (some 2) = none) :
    _parse_header hdrBytes = .ok none := by
  unfold _parse_header
  rw [hdec, except_bindM_ok]
  dsimp only
  rw [hsys]
  cases get_first msg 1 (some 2) <;> rfl

theorem parse_iu_header_nosys {hdrBytes : List Nat} {msg : List ProtoField}
    (hdec : decode_message hdrBytes = .ok msg)
    (hsys : get_first msg 4 (some 2) = none) :
    _parse_indoor_unit_header hdrBytes = .ok none := by
  unfold _parse_indoor_unit_header
  rw [hdec, except_bindM_ok]
  dsimp only
  rw [hsys]
  cases get_first msg 1 (some 2) <;> rfl

theorem parse_cs_header_nosys {hdrBytes : List Nat} {msg : List ProtoField}
    (hdec : decode_message hdrBytes = .ok msg)
    (hsys : get_first msg 4 (some 2) = none) :
    _parse_comfort_setting_header hdrBytes = .ok none := by
  unfold _parse_comfort_setting_header
  rw [hdec, except_bindM_ok]
  dsimp only
  rw [hsys]
  cases get_first msg 1 (some 2) <;> rfl

theorem hdsTopicStep_nosys {name : String} {acc : HdsAcc} {f : ProtoField}
    {obj_msg hdr_msg : List ProtoField} {hdr_f oid_f : ProtoField}
    (hobj : decode_message f.value.bytes = .ok obj_msg)
    (hhf : get_first obj_msg 1 (some 2) = some hdr_f)
    (hhdr : decode_message hdr_f.value.bytes = .ok hdr_msg)
    (hoid : get_first hdr_msg 1 (some 2) = some oid_f)
    (hsys : get_first hdr_msg 4 (some 2) = none) :
    hdsTopicStep name acc f =
      { acc with topic_ids := topicAdd name oid_f.value.bytes acc.topic_ids } := by
  unfold hdsTopicStep
  rw [hobj]
  dsimp only
  rw [hhf]
  dsimp only
  rw [hhdr]
  dsimp only
  rw [hoid, hsys]
  by_cases hbox : acc.system_id_box.isNone <;> simp [hbox]

theorem hdsSpaceStep_nosys {acc : HdsAcc} {f : ProtoField} {obj_msg : List ProtoField}
    {hdr_f : ProtoField}
    (hobj : decode_message f.value.bytes = .ok obj_msg)
    (hhf : get_first obj_msg 1 (some 2) = some hdr_f)
    (hph : _parse_header hdr_f.value.bytes = .ok none) :
    hdsSpaceStep acc f = .ok acc := by
  unfold hdsSpaceStep
  rw [hobj, except_bindM_ok]
  dsimp only
  rw [hhf]
  simp only [optParseOr]
  rw [hph, except_bindM_ok]
  rfl

theorem hdsIndoorUnitStep_nosys {acc : HdsAcc} {f : ProtoField} {obj_msg : List ProtoField}
    {hdr_f : ProtoField}
    (hobj : decode_message f.value.bytes = .ok obj_msg)
    (hhf : get_first obj_msg 1 (some 2) = some hdr_f)
    (hph : _parse_indoor_unit_header hdr_f.value.bytes = .ok none) :
    hdsIndoorUnitStep acc f = .ok acc := by
  unfold hdsIndoorUnitStep
  rw [hobj]
  dsimp only
  rw [hhf]
  simp only [optParseOr]
  rw [hph, except_bindM_ok]
  rfl

theorem hdsComfortStep_nosys {acc : HdsAcc} {f : ProtoField} {obj_msg : List ProtoField}
    {hdr_f : ProtoField}
    (hobj : decode_message f.value.bytes = .ok obj_msg)
    (hhf : get_first obj_msg 1 (some 2) = some hdr_f)
    (hph : _parse_comfort_setting_header hdr_f.value.bytes = .ok none) :
    hdsComfortStep acc f = .ok acc := by
  unfold hdsComfortStep
  rw [hobj, except_bindM_ok]
  dsimp only
  rw [hhf]
  simp only [optParseOr]
  rw [hph, except_bindM_ok]
  cases get_first obj_msg 2 (some 2) <;> rfl

/-- C10: for every object whose header carries an id (field 1) but no system
id (field 4) — with arbitrary further fields in the object and in the header
— and in every accumulator state reached while parsing any response, each of
the three typed-entity loop bodies (Space, IndoorUnit, ComfortSetting)
leaves the parse state unchanged, dropping the object from the entity maps,
while the topic-index loop body still records the object's id under its
topic name; end to end, a response holding one such Space (field 3),
IndoorUnit (field 9) or ComfortSetting (field 13) object parses with all
entity maps empty and the id recorded in `topic_ids`, so an object can
appear in `topic_ids` without appearing in any entity map. -/
theorem claim_C10 :
    (∀ (name : String) (acc : HdsAcc) (f : ProtoField)
       (obj_msg hdr_msg : List ProtoField) (hdr_f oid_f : ProtoField),
      decode_message f.value.bytes = .ok obj_msg →
      get_first obj_msg 1 (some 2) = some hdr_f →
      decode_message hdr_f.value.bytes = .ok hdr_msg →
      get_first hdr_msg 1 (some 2) = some oid_f →
      get_first hdr_msg 4 (some 2) = none →
      hdsTopicStep name acc f =
        { acc with topic_ids := topicAdd name oid_f.value.bytes acc.topic_ids } ∧
      hdsSpaceStep acc f = .ok acc ∧
      hdsIndoorUnitStep acc f = .ok acc ∧
      hdsComfortStep acc f = .ok acc) ∧
    (∀ (oid : List Nat), oid.length < 128 →
      (parse_get_home_datastore_system_response
          (encode_bytes_field 3 (encode_bytes_field 1 (encode_bytes_field 1 oid))) =
        .ok ⟨none, [], [], [], [], [], [("space", [oid])]⟩) ∧
      (parse_get_home_datastore_system_response
          (encode_bytes_field 9 (encode_bytes_field 1 (encode_bytes_field 1 oid))) =
        .ok ⟨none, [], [], [], [], [], [("indoor_unit", [oid])]⟩) ∧
      (parse_get_home_datastore_system_response
          (encode_bytes_field 13 (encode_bytes_field 1 (encode_bytes_field 1 oid))) =
        .ok ⟨none, [], [], [], [], [], [("comfort_setting", [oid])]⟩)) :=
  ⟨fun _ _ _ _ _ _ _ hobj hhf hhdr hoid hsys =>
    ⟨hdsTopicStep_nosys hobj hhf hhdr hoid hsys,
     hdsSpaceStep_nosys hobj hhf (parse_header_nosys hhdr hsys),
     hdsIndoorUnitStep_nosys hobj hhf (parse_iu_header_nosys hhdr hsys),
     hdsComfortStep_nosys hobj hhf (parse_cs_header_nosys hhdr hsys)⟩,
   fun _ h => ⟨hds_single_space_only_id h, hds_single_iu_only_id h, hds_single_cs_only_id h⟩⟩

/-- C10 (witness): the loop-body facts at a concrete no-system-id object
(the header also carries a created timestamp, field 2) in a concrete
non-empty accumulator state, and the three single-object responses at id
`"a"`. -/
theorem claim_C10_witness :
    (hdsTopicStep "space"
        ⟨[], [], [], [], [], some [120], [("space", [[98]])]⟩
        ⟨3, 2, .vbytes (encode_bytes_field 1
          (encode_bytes_field 1 [97] ++ encode_bytes_field 2 (encode_varint_field 1 5)))⟩ =
      ⟨[], [], [], [], [], some [120], [("space", [[98], [97]])]⟩) ∧
    (hdsSpaceStep
        ⟨[], [], [], [], [], some [120], [("space", [[98]])]⟩
        ⟨3, 2, .vbytes (encode_bytes_field 1
          (encode_bytes_field 1 [97] ++ encode_bytes_field 2 (encode_varint_field 1 5)))⟩ =
      .ok ⟨[], [], [], [], [], some [120], [("space", [[98]])]⟩) ∧
    (parse_get_home_datastore_system_response
        (encode_bytes_field 3 (encode_bytes_field 1 (encode_bytes_field 1 [97]))) =
      .ok ⟨none, [], [], [], [], [], [("space", [[97]])]⟩) ∧
    (parse_get_home_datastore_system_response
        (encode_bytes_field 9 (encode_bytes_field 1 (encode_bytes_field 1 [97]))) =
      .ok ⟨none, [], [], [], [], [], [("indoor_unit", [[97]])]⟩) ∧
    (parse_get_home_datastore_system_response
        (encode_bytes_field 13 (encode_bytes_field 1 (encode_bytes_field 1 [97]))) =
      .ok ⟨none, [], [], [], [], [], [("comfort_setting", [[97]])]⟩) :=
  ⟨(claim_C10.1 "space" ⟨[], [], [], [], [], some [120], [("space", [[98]])]⟩
      ⟨3, 2, .vbytes (encode_bytes_field 1
        (encode_bytes_field 1 [97] ++ encode_bytes_field 2 (encode_varint_field 1 5)))⟩
      [⟨1, 2, .vbytes (encode_bytes_field 1 [97] ++ encode_bytes_field 2 (encode_varint_field 1 5))⟩]
      [⟨1, 2, .vbytes [97]⟩, ⟨2, 2, .vbytes (encode_varint_field 1 5)⟩]
      ⟨1, 2, .vbytes (encode_bytes_field 1 [97] ++ encode_bytes_field 2 (encode_varint_field 1 5))⟩
      ⟨1, 2, .vbytes [97]⟩
      (by decide) (by decide) (by decide) (by decide) (by decide)).1,
   (claim_C10.1 "space" ⟨[], [], [], [], [], some [120], [("space", [[98]])]⟩
      ⟨3, 2, .vbytes (encode_bytes_field 1
        (encode_bytes_field 1 [97] ++ encode_bytes_field 2 (encode_varint_field 1 5)))⟩
      [⟨1, 2, .vbytes (encode_bytes_field 1 [97] ++ encode_bytes_field 2 (encode_varint_field 1 5))⟩]
      [⟨1, 2, .vbytes [97]⟩, ⟨2, 2, .vbytes (encode_varint_field 1 5)⟩]
      ⟨1, 2, .vbytes (encode_bytes_field 1 [97] ++ encode_bytes_field 2 (encode_varint_field 1 5))⟩
      ⟨1, 2, .vbytes [97]⟩
      (by decide) (by decide) (by decide) (by decide) (by decide)).2.1,
   (claim_C10.2 [97] (by decide)).1,
   (claim_C10.2 [97] (by decide)).2.1,
   (claim_C10.2 [97] (by decide)).2.2⟩

theorem hds_two_spaces_drop_noid {oid sys : List Nat} (hlen : oid.length < 128)
    (hslen : sys.length < 128) :
    parse_get_home_datastore_system_response
      (encode_bytes_field 3 (encode_bytes_field 1 (encode_bytes_field 4 sys)) ++
       encode_bytes_field 3 (encode_bytes_field 1
         (encode_bytes_field 1 oid ++ encode_bytes_field 4 sys))) =
      .ok ⟨some sys, [(oid, ⟨⟨oid, none, none, sys⟩, none, ⟨none, none⟩,
        ⟨none, none, none, none, none, none, none, none⟩,
        ⟨none, none, none, none, none⟩⟩)], [], [], [], [], [("space", [oid])]⟩ := by
  have hhdrA : decode_message (encode_bytes_field 4 sys) = .ok [⟨4, 2, .vbytes sys⟩] :=
    decode_field_bytes (by norm_num) (by norm_num) (by norm_num; omega)
  have hhdrB : decode_message (encode_bytes_field 1 oid ++ encode_bytes_field 4 sys) =
      .ok [⟨1, 2, .vbytes oid⟩, ⟨4, 2, .vbytes sys⟩] := by
    have := decode_message_append
      (@decode_field_bytes 1 oid (by norm_num) (by norm_num) (by norm_num; omega))
      (@decode_field_bytes 4 sys (by norm_num) (by norm_num) (by norm_num; omega))
    simpa using this
  have hAlen : (encode_bytes_field 4 sys).length = 2 + sys.length :=
    encode_bytes_field_small_len (by norm_num) hslen
  have hBlen : (encode_bytes_field 1 oid ++ encode_bytes_field 4 sys).length =
      (2 + oid.length) + (2 + sys.length) := by
    rw [List.length_append, encode_bytes_field_small_len (by norm_num) hlen,
      encode_bytes_field_small_len (by norm_num) hslen]
  have hobjA : decode_message (encode_bytes_field 1 (encode_bytes_field 4 sys)) =
      .ok [⟨1, 2, .vbytes (encode_bytes_field 4 sys)⟩] :=
    decode_field_bytes (by norm_num) (by norm_num) (by rw [hAlen]; norm_num; omega)
  have hobjB : decode_message (encode_bytes_field 1
      (encode_bytes_field 1 oid ++ encode_bytes_field 4 sys)) =
      .ok [⟨1, 2, .vbytes (encode_bytes_field 1 oid ++ encode_bytes_field 4 sys)⟩] :=
    decode_field_bytes (by norm_num) (by norm_num) (by rw [hBlen]; norm_num; omega)
  have hOAlen : (encode_bytes_field 1 (encode_bytes_field 4 sys)).length ≤
      2 * (2 + sys.length) + 2 := by
    have := encode_bytes_field_len_le (n := 1) (p := encode_bytes_field 4 sys) (by norm_num)
    rwa [hAlen] at this
  have hOBlen : (encode_bytes_field 1
      (encode_bytes_field 1 oid ++ encode_bytes_field 4 sys)).length ≤
      2 * ((2 + oid.length) + (2 + sys.length)) + 2 := by
    have := encode_bytes_field_len_le (n := 1)
      (p := encode_bytes_field 1 oid ++ encode_bytes_field 4 sys) (by norm_num)
    rwa [hBlen] at this
  have htop : decode_message
      (encode_bytes_field 3 (encode_bytes_field 1 (encode_bytes_field 4 sys)) ++
       encode_bytes_field 3 (encode_bytes_field 1
         (encode_bytes_field 1 oid ++ encode_bytes_field 4 sys))) =
      .ok [⟨3, 2, .vbytes (encode_bytes_field 1 (encode_bytes_field 4 sys))⟩,
           ⟨3, 2, .vbytes (encode_bytes_field 1
             (encode_bytes_field 1 oid ++ encode_bytes_field 4 sys))⟩] := by
    have := decode_message_append
      (@decode_field_bytes 3 (encode_bytes_field 1 (encode_bytes_field 4 sys))
        (by norm_num) (by norm_num) (by norm_num; omega))
      (@decode_field_bytes 3
        (encode_bytes_field 1 (encode_bytes_field 1 oid ++ encode_bytes_field 4 sys))
        (by norm_num) (by norm_num) (by norm_num; omega))
    simpa using this
  unfold parse_get_home_datastore_system_response
  rw [htop, except_bindM_ok]
  simp only [field_to_topic, List.foldl, get_all]
  norm_num
  rw [hdsTopicStep_noid hobjA hhdrA, hdsTopicStep_nosys_full hobjB hhdrB]
  norm_num
  rw [hdsSpaceStep_drop hobjA (parse_header_sys_only hhdrA), except_bindM_ok]
  rw [hdsSpaceStep_insert hobjB (parse_header_full hhdrB)]
  simp only [except_bindM_ok, List.foldlM, except_pure, pyOrBytes]
  by_cases hse : sys.isEmpty <;>
    simp [hse, topicAdd, dget, dinsert, sinsert, Functor.map, Except.map]

theorem except_map_ok_inv {ε α β : Type} {x : Except ε α} {f : α → β} {b : β}
    (h : f <$> x = .ok b) : ∃ a, x = .ok a ∧ f a = b := by
  cases x with
  | error e => simp [Functor.map, Except.map] at h
  | ok a =>
    refine ⟨a, rfl, ?_⟩
    simpa [Functor.map, Except.map] using h

theorem hdsTopicStep_spaces (name : String) (acc : HdsAcc) (f : ProtoField) :
    (hdsTopicStep name acc f).spaces = acc.spaces := by
  unfold hdsTopicStep
  dsimp only
  repeat' split
  all_goals rfl

theorem hdsTopicStep_indoor_units (name : String) (acc : HdsAcc) (f : ProtoField) :
    (hdsTopicStep name acc f).indoor_units = acc.indoor_units := by
  unfold hdsTopicStep
  dsimp only
  repeat' split
  all_goals rfl

theorem hdsTopicStep_comfort_settings (name : String) (acc : HdsAcc) (f : ProtoField) :
    (hdsTopicStep name acc f).comfort_settings = acc.comfort_settings := by
  unfold hdsTopicStep
  dsimp only
  repeat' split
  all_goals rfl

theorem hdsSpaceStep_inv {acc a' : HdsAcc} {f : ProtoField}
    (h : hdsSpaceStep acc f = .ok a') :
    (a'.spaces = acc.spaces ∨
      ∃ sp : QuiltSpace, a'.spaces = dinsert sp.header.space_id sp acc.spaces) ∧
    a'.indoor_units = acc.indoor_units ∧ a'.comfort_settings = acc.comfort_settings := by
  unfold hdsSpaceStep at h
  obtain ⟨fields, hdec, h⟩ := except_bind_ok_inv h
  obtain ⟨hdr?, hh, h⟩ := except_bind_ok_inv h
  cases hdr? with
  | none =>
    simp only [except_pure, Except.ok.injEq] at h
    subst h
    exact ⟨Or.inl rfl, rfl, rfl⟩
  | some header =>
    obtain ⟨settings, hs, h⟩ := except_bind_ok_inv h
    obtain ⟨controls, hc, h⟩ := except_bind_ok_inv h
    obtain ⟨st, hst, h⟩ := except_bind_ok_inv h
    obtain ⟨parent, hp2, h⟩ := except_bind_ok_inv h
    simp only [except_pure, Except.ok.injEq] at h
    subst h
    exact ⟨Or.inr ⟨⟨header, parent, settings, controls, st⟩, rfl⟩, rfl, rfl⟩

theorem hdsIndoorUnitStep_inv {acc a' : HdsAcc} {f : ProtoField}
    (h : hdsIndoorUnitStep acc f = .ok a') :
    a'.spaces = acc.spaces ∧
    (a'.indoor_units = acc.indoor_units ∨
      ∃ iu : QuiltIndoorUnit,
        a'.indoor_units = dinsert iu.header.indoor_unit_id iu acc.indoor_units) ∧
    a'.comfort_settings = acc.comfort_settings := by
  unfold hdsIndoorUnitStep at h
  cases hd : decode_message f.value.bytes with
  | error e =>
    rw [hd] at h
    simp only [Except.ok.injEq] at h
    subst h
    exact ⟨rfl, Or.inl rfl, rfl⟩
  | ok iu_fields =>
    rw [hd] at h
    simp only at h
    obtain ⟨hdr?, hh, h⟩ := except_bind_ok_inv h
    cases hdr? with
    | none =>
      simp only [except_pure, Except.ok.injEq] at h
      subst h
      exact ⟨rfl, Or.inl rfl, rfl⟩
    | some header =>
      obtain ⟨rel, hr, h⟩ := except_bind_ok_inv h
      obtain ⟨controls, hc, h⟩ := except_bind_ok_inv h
      simp only [except_pure, Except.ok.injEq] at h
      subst h
      refine ⟨?_, Or.inr ⟨⟨header, rel, controls⟩, ?_⟩, ?_⟩
      · cases rel with
        | none => rfl
        | some r => cases hrs : r.space_id <;> simp [hrs]
      · cases rel with
        | none => rfl
        | some r => cases hrs : r.space_id <;> simp [hrs]
      · cases rel with
        | none => rfl
        | some r => cases hrs : r.space_id <;> simp [hrs]

theorem hdsComfortStep_inv {acc a' : HdsAcc} {f : ProtoField}
    (h : hdsComfortStep acc f = .ok a') :
    a'.spaces = acc.spaces ∧ a'.indoor_units = acc.indoor_units ∧
    (a'.comfort_settings = acc.comfort_settings ∨
      ∃ cs : QuiltComfortSetting,
        a'.comfort_settings = dinsert cs.header.comfort_setting_id cs acc.comfort_settings) := by
  unfold hdsComfortStep at h
  obtain ⟨fields, hdec, h⟩ := except_bind_ok_inv h
  obtain ⟨hdr?, hh, h⟩ := except_bind_ok_inv h
  cases hdr? with
  | none =>
    simp only [except_pure, Except.ok.injEq] at h
    subst h
    exact ⟨rfl, rfl, Or.inl rfl⟩
  | some header =>
    cases hattr : get_first fields 2 (some 2) with
    | none =>
      rw [hattr] at h
      simp only [except_pure, Except.ok.injEq] at h
      subst h
      exact ⟨rfl, rfl, Or.inl rfl⟩
    | some af =>
      rw [hattr] at h
      simp only at h
      obtain ⟨attrs, ha, h⟩ := except_bind_ok_inv h
      simp only [except_pure, Except.ok.injEq] at h
      subst h
      cases hrel : (get_first fields 3 (some 2)).bind
          (fun rf => _parse_comfort_setting_relationships rf.value.bytes) with
      | none =>
        simp only [hrel]
        exact ⟨trivial, trivial, Or.inr ⟨⟨header, attrs, none⟩, rfl⟩⟩
      | some r =>
        cases hsid : r.space_id with
        | none =>
          simp only [hrel, hsid]
          exact ⟨trivial, trivial, Or.inr ⟨⟨header, attrs, some r⟩, rfl⟩⟩
        | some sid =>
          simp only [hrel, hsid]
          exact ⟨trivial, trivial, Or.inr ⟨⟨header, attrs, some r⟩, rfl⟩⟩

theorem mem_dinsert {κ α : Type} [DecidableEq κ] {p : κ × α} (k : κ) (v : α) :
    ∀ d : List (κ × α), p ∈ dinsert k v d → p = (k, v) ∨ p ∈ d := by
  intro d
  induction d with
  | nil =>
    intro h
    simp only [dinsert, List.mem_singleton] at h
    exact Or.inl h
  | cons e rest ih =>
    obtain ⟨k1, v1⟩ := e
    intro h
    by_cases h1 : k1 = k
    · rw [dinsert, if_pos h1] at h
      rcases List.mem_cons.mp h with h2 | h2
      · exact Or.inl h2
      · exact Or.inr (List.mem_cons_of_mem _ h2)
    · rw [dinsert, if_neg h1] at h
      rcases List.mem_cons.mp h with h2 | h2
      · exact Or.inr (h2 ▸ List.mem_cons_self _ _)
      · rcases ih h2 with h3 | h3
        · exact Or.inl h3
        · exact Or.inr (List.mem_cons_of_mem _ h3)

/-- Every entry of the three typed entity maps is stored under the id carried
by its own header. -/
def hdsKeysOk (acc : HdsAcc) : Prop :=
  (∀ p ∈ acc.spaces, p.1 = p.2.header.space_id) ∧
  (∀ p ∈ acc.indoor_units, p.1 = p.2.header.indoor_unit_id) ∧
  (∀ p ∈ acc.comfort_settings, p.1 = p.2.header.comfort_setting_id)

theorem hdsKeysOk_topic (name : String) (acc : HdsAcc) (f : ProtoField)
    (h : hdsKeysOk acc) : hdsKeysOk (hdsTopicStep name acc f) := by
  refine ⟨?_, ?_, ?_⟩
  · rw [hdsTopicStep_spaces]; exact h.1
  · rw [hdsTopicStep_indoor_units]; exact h.2.1
  · rw [hdsTopicStep_comfort_settings]; exact h.2.2

theorem hdsKeysOk_space {acc a' : HdsAcc} {f : ProtoField}
    (hs : hdsSpaceStep acc f = .ok a') (h : hdsKeysOk acc) : hdsKeysOk a' := by
  obtain ⟨hsp, hiu, hcs⟩ := hdsSpaceStep_inv hs
  refine ⟨?_, ?_, ?_⟩
  · rcases hsp with h1 | ⟨sp, h1⟩
    · rw [h1]; exact h.1
    · rw [h1]
      intro p hp
      rcases mem_dinsert _ _ _ hp with h2 | h2
      · rw [h2]
      · exact h.1 p h2
  · rw [hiu]; exact h.2.1
  · rw [hcs]; exact h.2.2

theorem hdsKeysOk_iu {acc a' : HdsAcc} {f : ProtoField}
    (hs : hdsIndoorUnitStep acc f = .ok a') (h : hdsKeysOk acc) : hdsKeysOk a' := by
  obtain ⟨hsp, hiu, hcs⟩ := hdsIndoorUnitStep_inv hs
  refine ⟨?_, ?_, ?_⟩
  · rw [hsp]; exact h.1
  · rcases hiu with h1 | ⟨iu, h1⟩
    · rw [h1]; exact h.2.1
    · rw [h1]
      intro p hp
      rcases mem_dinsert _ _ _ hp with h2 | h2
      · rw [h2]
      · exact h.2.1 p h2
  · rw [hcs]; exact h.2.2

theorem hdsKeysOk_cs {acc a' : HdsAcc} {f : ProtoField}
    (hs : hdsComfortStep acc f = .ok a') (h : hdsKeysOk acc) : hdsKeysOk a' := by
  obtain ⟨hsp, hiu, hcs⟩ := hdsComfortStep_inv hs
  refine ⟨?_, ?_, ?_⟩
  · rw [hsp]; exact h.1
  · rw [hiu]; exact h.2.1
  · rcases hcs with h1 | ⟨cs, h1⟩
    · rw [h1]; exact h.2.2
    · rw [h1]
      intro p hp
      rcases mem_dinsert _ _ _ hp with h2 | h2
      · rw [h2]
      · exact h.2.2 p h2

theorem hds_parse_keys {data : List Nat} {h : QuiltHdsSystem}
    (hp : parse_get_home_datastore_system_response data = .ok h) :
    (∀ p ∈ h.spaces, p.1 = p.2.header.space_id) ∧
    (∀ p ∈ h.indoor_units, p.1 = p.2.header.indoor_unit_id) ∧
    (∀ p ∈ h.comfort_settings, p.1 = p.2.header.comfort_setting_id) := by
  unfold parse_get_home_datastore_system_response at hp
  obtain ⟨top, hdec, hp⟩ := except_bind_ok_inv hp
  simp only at hp
  obtain ⟨acc2, h9, hp⟩ := except_bind_ok_inv hp
  obtain ⟨acc3, h3, hp⟩ := except_bind_ok_inv hp
  obtain ⟨acc4, h13, hp⟩ := except_bind_ok_inv hp
  simp only [except_pure, Except.ok.injEq] at hp
  have hk1 : hdsKeysOk (field_to_topic.foldl
      (fun acc q => (get_all top q.1 (some 2)).foldl (hdsTopicStep q.2) acc)
      ⟨[], [], [], [], [], none, []⟩) := by
    refine foldl_inv hdsKeysOk _ ?_ field_to_topic _ ?_
    · intro a b hb
      exact foldl_inv hdsKeysOk (hdsTopicStep b.2)
        (fun a2 f2 hf => hdsKeysOk_topic b.2 a2 f2 hf) _ a hb
    · refine ⟨?_, ?_, ?_⟩ <;> intro p hp2 <;> cases hp2
  have hk2 : hdsKeysOk acc2 := foldlM_except_inv hdsKeysOk hdsIndoorUnitStep
    (fun a b a2 ha hs => hdsKeysOk_iu hs ha) _ _ acc2 hk1 h9
  have hk3 : hdsKeysOk acc3 := foldlM_except_inv hdsKeysOk hdsSpaceStep
    (fun a b a2 ha hs => hdsKeysOk_space hs ha) _ _ acc3 hk2 h3
  have hk4 : hdsKeysOk acc4 := foldlM_except_inv hdsKeysOk hdsComfortStep
    (fun a b a2 ha hs => hdsKeysOk_cs hs ha) _ _ acc4 hk3 h13
  rw [← hp]
  exact ⟨hk4.1, hk4.2.1, hk4.2.2⟩

/-- C2 (amended): an object whose header fails to carry an id *field* is
dropped silently while the rest of the response still parses — shown for a
response with two Space objects, one whose header has only a system id
(dropped) and one carrying both an id and a system id (stored) — and every
Space, IndoorUnit and ComfortSetting stored in the entity maps is keyed by
exactly the id carried in its own header.  (The unamended claim — that every
stored id is non-empty — is refuted by the counterexample: a header whose id
field is present but empty is stored under the empty id.) -/
theorem claim_C2 :
    (∀ (oid sys : List Nat), oid.length < 128 → sys.length < 128 →
      parse_get_home_datastore_system_response
        (encode_bytes_field 3 (encode_bytes_field 1 (encode_bytes_field 4 sys)) ++
         encode_bytes_field 3 (encode_bytes_field 1
           (encode_bytes_field 1 oid ++ encode_bytes_field 4 sys))) =
        .ok ⟨some sys, [(oid, ⟨⟨oid, none, none, sys⟩, none, ⟨none, none⟩,
          ⟨none, none, none, none, none, none, none, none⟩,
          ⟨none, none, none, none, none⟩⟩)], [], [], [], [], [("space", [oid])]⟩) ∧
    (∀ (data : List Nat) (h : QuiltHdsSystem),
      parse_get_home_datastore_system_response data = .ok h →
      (∀ p ∈ h.spaces, p.1 = p.2.header.space_id) ∧
      (∀ p ∈ h.indoor_units, p.1 = p.2.header.indoor_unit_id) ∧
      (∀ p ∈ h.comfort_settings, p.1 = p.2.header.comfort_setting_id)) :=
  ⟨fun _ _ h1 h2 => hds_two_spaces_drop_noid h1 h2, fun _ _ hp => hds_parse_keys hp⟩

/-- C2 (counterexample to the unamended claim): a Space whose header carries
an *empty* id field is stored — `spaces` gains the key `""` and
`topic_ids["space"]` records the empty id — so stored ids need not be
non-empty. -/
theorem claim_C2_counterexample :
    (parse_get_home_datastore_system_response
        (encode_bytes_field 3 (encode_bytes_field 1
          (encode_bytes_field 1 [] ++ encode_bytes_field 4 [115])))).map
      (fun h => ((dget ([] : List Nat) h.spaces).isSome, dget "space" h.topic_ids)) =
      .ok (true, some [[]]) := by decide

/-- C2 (witness). -/
theorem claim_C2_witness :
    (parse_get_home_datastore_system_response
        (encode_bytes_field 3 (encode_bytes_field 1 (encode_bytes_field 4 [115])) ++
         encode_bytes_field 3 (encode_bytes_field 1
           (encode_bytes_field 1 [97] ++ encode_bytes_field 4 [115]))) =
      .ok ⟨some [115], [([97], ⟨⟨[97], none, none, [115]⟩, none, ⟨none, none⟩,
        ⟨none, none, none, none, none, none, none, none⟩,
        ⟨none, none, none, none, none⟩⟩)], [], [], [], [],
        [("space", [[97]])]⟩) ∧
    (∀ p ∈ (⟨some [115], [([97], ⟨⟨[97], none, none, [115]⟩, none, ⟨none, none⟩,
        ⟨none, none, none, none, none, none, none, none⟩,
        ⟨none, none, none, none, none⟩⟩)], [], [], [], [],
        [("space", [[97]])]⟩ : QuiltHdsSystem).spaces, p.1 = p.2.header.space_id) :=
  ⟨claim_C2.1 [97] [115] (by decide) (by decide),
   (claim_C2.2
     (encode_bytes_field 3 (encode_bytes_field 1 (encode_bytes_field 4 [115])) ++
      encode_bytes_field 3 (encode_bytes_field 1
        (encode_bytes_field 1 [97] ++ encode_bytes_field 4 [115])))
     ⟨some [115], [([97], ⟨⟨[97], none, none, [115]⟩, none, ⟨none, none⟩,
        ⟨none, none, none, none, none, none, none, none⟩,
        ⟨none, none, none, none, none⟩⟩)], [], [], [], [],
        [("space", [[97]])]⟩ (by decide)).1⟩

end Quilt
